import Mathlib

/-!
# wut: public-address lookup by racing "what is my IP" endpoints

A shallow embedding of `wut.go` and theorems about it.

Conventions of the embedding.

* A Go `string` is a Lean `String`, i.e. a sequence of code points.  The byte
  operations the source applies to strings (`str[0]`, `str[len(str)-1]`,
  `str[1:]`, `str[:len(str)-1]`) only compare with, and cut off, the ASCII bytes
  `[` and `]`, which in UTF-8 are whole characters.
* A Go `error` is `Option String`: `none` is `nil`, `some m` an error whose
  `Error()` text is `m`.
* `time.Duration` is an `Int` (nanoseconds).
* A function that can end in a run-time panic returns `Option`; `none` is the
  panic (or, for the channel receives, a goroutine that never gets a value).
* Goroutines and channels are replaced by their observable order: a race is
  given the list of fetch outcomes in the order in which they arrive on
  `clientRespChan`, and returns the list of reports it sends on `respChan`.
* The Go standard library functions used by the source (`strings.TrimSpace`,
  `strings.Trim`, `strings.Index`, `net.ParseIP`, `IP.To4`, `strconv.Itoa`,
  `Duration.Milliseconds`) are embedded from their Go definitions; the
  operating system (`net.InterfaceByName`, `Interface.Addrs`,
  `net.ResolveTCPAddr`) is a parameter `Env`.
-/

namespace Wut

/-! ## Go standard library -/

/-- Go `unicode.IsSpace`: the Unicode White_Space property. -/
def unicodeIsSpace (c : Char) : Bool :=
  let n := c.toNat
  n == 0x09 || n == 0x0A || n == 0x0B || n == 0x0C || n == 0x0D || n == 0x20 ||
  n == 0x85 || n == 0xA0 || n == 0x1680 || (0x2000 ≤ n && n ≤ 0x200A) ||
  n == 0x2028 || n == 0x2029 || n == 0x202F || n == 0x205F || n == 0x3000

/-- Removes from both ends of `s` the characters that satisfy `p`
(Go `strings.TrimFunc`). -/
def trimFunc (p : Char → Bool) (s : List Char) : List Char :=
  ((s.dropWhile p).reverse.dropWhile p).reverse

/-- Go `strings.TrimSpace`. -/
def TrimSpace (s : String) : String := ⟨trimFunc unicodeIsSpace s.data⟩

/-- Go `strings.Trim(s, cutset)`. -/
def Trim (s cutset : String) : String := ⟨trimFunc (fun c => cutset.data.contains c) s.data⟩

/-- Go `strings.Index(s, "/")`, as the prefix before the first `/` when there
is one (`slashPos != -1`). -/
def indexSlash : List Char → Option (List Char)
  | [] => none
  | c :: rest => if c = '/' then some [] else (indexSlash rest).map (c :: ·)

/-- An address as `net.ParseIP` returns it: a list of bytes. -/
abbrev IP := List Nat

/-- Go `netip.parseIPv4Fields`, the loop over the characters of `s`; `i` is the
index of the current character, `prev` the previous character. -/
def parseIPv4FieldsLoop : List Char → Nat → Option Char → Nat → Nat → Nat → List Nat →
    Option (List Nat)
  | [], _, _, val, pos, _, fields => if pos < 3 then none else some (fields ++ [val])
  | c :: rest, i, prev, val, pos, digLen, fields =>
    if 48 ≤ c.toNat ∧ c.toNat ≤ 57 then
      if digLen = 1 ∧ val = 0 then none
      else
        let val1 := val * 10 + (c.toNat - 48)
        if val1 > 255 then none
        else parseIPv4FieldsLoop rest (i + 1) (some c) val1 pos (digLen + 1) fields
    else if c = '.' then
      if i = 0 ∨ rest = [] ∨ prev = some '.' then none
      else if pos = 3 then none
      else parseIPv4FieldsLoop rest (i + 1) (some c) 0 (pos + 1) 0 (fields ++ [val])
    else none

/-- Go `netip.parseIPv4Fields`: the four bytes of a dotted quad. -/
def parseIPv4Fields (s : List Char) : Option (List Nat) :=
  parseIPv4FieldsLoop s 0 none 0 0 0 []

/-- Value of a hexadecimal digit. -/
def hexVal (c : Char) : Option Nat :=
  if 48 ≤ c.toNat ∧ c.toNat ≤ 57 then some (c.toNat - 48)
  else if 97 ≤ c.toNat ∧ c.toNat ≤ 102 then some (c.toNat - 97 + 10)
  else if 65 ≤ c.toNat ∧ c.toNat ≤ 70 then some (c.toNat - 65 + 10)
  else none

/-- The inner loop of Go `netip.parseIPv6` that reads one hexadecimal group:
the number of digits read, their value and the rest of the string. -/
def parseHexGroup : List Char → Nat → Nat → Option (Nat × Nat × List Char)
  | [], off, acc => some (off, acc, [])
  | c :: rest, off, acc =>
    match hexVal c with
    | none => some (off, acc, c :: rest)
    | some v =>
      let acc1 := acc * 16 + v
      if off > 3 then none
      else if acc1 > 65535 then none
      else parseHexGroup rest (off + 1) acc1

/-- The main loop `for i < 16` of Go `netip.parseIPv6`.  The bytes written so
far are `ip` (so `i = ip.length`); every turn that does not leave the loop writes
two bytes, so the first argument, the number of turns left, is `(16 - i) / 2` and
`0` is the exit `i = 16`.  The result is the unread rest of the string, the
bytes and the position of the ellipsis. -/
def parseIPv6Loop : Nat → List Char → List Nat → Option Nat →
    Option (List Char × List Nat × Option Nat)
  | 0, s, ip, ellipsis => some (s, ip, ellipsis)
  | r + 1, s, ip, ellipsis =>
    match parseHexGroup s 0 0 with
    | none => none
    | some (off, acc, rest) =>
      if off = 0 then none
      else if rest.head? = some '.' then
        if ellipsis = none ∧ ip.length ≠ 12 then none
        else if ip.length + 4 > 16 then none
        else
          match parseIPv4Fields s with
          | none => none
          | some fields => some ([], ip ++ fields, ellipsis)
      else
        let ip1 := ip ++ [acc / 256, acc % 256]
        match rest with
        | [] => some ([], ip1, ellipsis)
        | c :: s1 =>
          if c ≠ ':' then none
          else
            match s1 with
            | [] => none
            | c1 :: s2 =>
              if c1 = ':' then
                if ellipsis.isSome then none
                else if s2 = [] then some ([], ip1, some ip1.length)
                else parseIPv6Loop r s2 ip1 (some ip1.length)
              else parseIPv6Loop r s1 ip1 ellipsis

/-- Splits `s` at the first `%` (Go `bytealg.IndexByteString(s, '%')`): the part
before it and, when there is a `%`, the part after it. -/
def splitZone : List Char → List Char × Option (List Char)
  | [] => ([], none)
  | c :: rest =>
    if c = '%' then ([], some rest)
    else ((splitZone rest).1.cons c, (splitZone rest).2)

/-- Go `netip.parseIPv6`: the 16 bytes and the zone. -/
def parseIPv6 (input : List Char) : Option (List Nat × List Char) :=
  match splitZone input with
  | (_, some []) => none
  | (s0, zone?) =>
    let zone := zone?.getD []
    let lead := s0.take 2 = [':', ':']
    if lead ∧ s0.drop 2 = [] then some (List.replicate 16 0, zone)
    else
      match parseIPv6Loop 8 (if lead then s0.drop 2 else s0) [] (if lead then some 0 else none) with
      | none => none
      | some (s, ip, ellipsis) =>
        if s ≠ [] then none
        else if ip.length < 16 then
          match ellipsis with
          | none => none
          | some e => some (ip.take e ++ List.replicate (16 - ip.length) 0 ++ ip.drop e, zone)
        else if ellipsis.isSome then none
        else some (ip, zone)

/-- Go `netip.ParseAddr` followed by `Addr.As16`, as used by `net.parseIP`: the
first of `.`, `:`, `%` in `s` decides how it is read.  `rest` is the part of `s`
still to scan. -/
def parseAddrScan (s : List Char) : List Char → Option (List Nat × List Char)
  | [] => none
  | c :: rest =>
    if c = '.' then
      (parseIPv4Fields s).map fun f => ([0, 0, 0, 0, 0, 0, 0, 0, 0, 0, 255, 255] ++ f, [])
    else if c = ':' then parseIPv6 s
    else if c = '%' then none
    else parseAddrScan s rest

/-- Go `net.ParseIP`: `nil` (here `none`) when `s` is not the text of an IPv4 or
IPv6 address, or has a zone. -/
def ParseIP (s : String) : Option IP :=
  match parseAddrScan s.data s.data with
  | none => none
  | some (ip, zone) => if zone ≠ [] then none else some ip

/-- Go `IP.To4`: the four-byte form of an IPv4 address, `nil` for any other. -/
def To4 (ip : IP) : Option IP :=
  if ip.length = 4 then some ip
  else if ip.length = 16 ∧ ip.take 10 = List.replicate 10 0 ∧ ip.get? 10 = some 255 ∧
      ip.get? 11 = some 255 then some (ip.drop 12)
  else none

/-! ## Data model (`wut.go`, lines 34-52) -/

/-- The `ipType` enumeration. -/
inductive ipType where
  | ipv4
  | ipv6
  | ipUnset
  deriving DecidableEq, Repr

/-- The `bindType` struct. -/
structure bindType where
  IP : ipType
  iFace : Bool
  deriving DecidableEq, Repr

/-- The `ipStringResp` struct. -/
structure ipStringResp where
  IP : String
  QueryTime : Int
  Err : Option String
  Timeout : Bool
  deriving DecidableEq, Repr

/-! ## `getBindType` (lines 236-264) -/

/-- Go indexing `s[i]`; `none` is an index out of range. -/
def index (s : List Char) (i : Int) : Option Char :=
  if 0 ≤ i ∧ i < s.length then s.get? i.toNat else none

/-- Go slicing `s[lo:]`; `none` is a slice bound out of range. -/
def sliceFrom (s : List Char) (lo : Int) : Option (List Char) :=
  if 0 ≤ lo ∧ lo ≤ s.length then some (s.drop lo.toNat) else none

/-- Go slicing `s[:hi]`; `none` is a slice bound out of range. -/
def sliceTo (s : List Char) (hi : Int) : Option (List Char) :=
  if 0 ≤ hi ∧ hi ≤ s.length then some (s.take hi.toNat) else none

/-- Lines 252-256 of `getBindType`: the string after
`if str[0] == '[' && str[len(str)-1] == ']' { str = str[1:]; str = str[:len(str)-1] }`. -/
def trimBrackets (str : List Char) : Option (List Char) :=
  match index str 0 with
  | none => none
  | some first =>
    if first = '[' then
      match index str ((str.length : Int) - 1) with
      | none => none
      | some last =>
        if last = ']' then
          match sliceFrom str 1 with
          | none => none
          | some str1 => sliceTo str1 ((str1.length : Int) - 1)
        else some str
    else some str

/-- The function `getBindType`.  `none` is a run-time panic (an index or a
slice bound out of range). -/
def getBindType (str0 : String) : Option bindType :=
  if str0 = "" then some ⟨ipType.ipUnset, false⟩
  else
    let str := TrimSpace str0
    match ParseIP str with
    | some ip =>
      if (To4 ip).isSome then some ⟨ipType.ipv4, false⟩ else some ⟨ipType.ipv6, false⟩
    | none =>
      match trimBrackets str.data with
      | none => none
      | some str1 =>
        match ParseIP ⟨str1⟩ with
        | some ip =>
          if (To4 ip).isNone then some ⟨ipType.ipv6, false⟩ else some ⟨ipType.ipUnset, true⟩
        | none => some ⟨ipType.ipUnset, true⟩

/-! ## `getIPTypeStr` (lines 266-275) -/

/-- The function `getIPTypeStr`. -/
def getIPTypeStr (bType : bindType) : String :=
  match bType.IP with
  | ipType.ipv4 => "IPv4"
  | ipType.ipv6 => "IPv6"
  | ipType.ipUnset => "IP"

/-! ## The operating system and the HTTP clients (lines 451-567) -/

/-- An interface address (`*net.IPNet`): its address and its text `addr.String()`. -/
structure IPNet where
  IP : IP
  text : String

/-- A `net.Interface`: what `iface.Addrs()` returns. -/
structure Interface where
  Addrs : Except String (List IPNet)

/-- The operating system as the program sees it. -/
structure Env where
  InterfaceByName : String → Except String Interface
  ResolveTCPAddr : String → Except String String

/-- An `http.Client` as far as the program configures it: the timeout, the
network of the dialer (`tcp4`, `tcp6`) or the local address it binds to. -/
structure Client where
  Timeout : Int
  network : Option String
  LocalAddr : Option String
  deriving DecidableEq, Repr

/-- The function `trimSubnet`. -/
def trimSubnet (ipStr : String) : String :=
  match indexSlash ipStr.data with
  | some pre => ⟨pre⟩
  | none => ipStr

/-- The loop over the addresses in `getInterfaceIP`: `some` is a `return` from
inside the loop, `none` the end of the loop. -/
def getInterfaceIPLoop (bType : bindType) : List IPNet → Option (Except String String)
  | [] => none
  | addr :: rest =>
    match bType.IP with
    | ipType.ipv4 =>
      if (To4 addr.IP).isSome then some (.ok (trimSubnet addr.text))
      else getInterfaceIPLoop bType rest
    | ipType.ipv6 =>
      if (To4 addr.IP).isNone then some (.ok (trimSubnet addr.text))
      else getInterfaceIPLoop bType rest
    | ipType.ipUnset => some (.error "invalid bind IP type")

/-- The function `getInterfaceIP`. -/
def getInterfaceIP (env : Env) (bType : bindType) (ifaceName : String) : Except String String :=
  match env.InterfaceByName ifaceName with
  | .error err => .error err
  | .ok iface =>
    match iface.Addrs with
    | .error err => .error err
    | .ok addrs =>
      match getInterfaceIPLoop bType addrs with
      | some r => r
      | none =>
        .error ("interface " ++ ifaceName ++ " does not have an " ++ getIPTypeStr bType ++
          " address")

/-- The function `getHTTPClient`. -/
def getHTTPClient (env : Env) (bType : bindType) (bind : String) (timeout : Int) :
    Except String Client :=
  if bind = "" then
    match bType.IP with
    | ipType.ipv4 => .ok ⟨timeout, some "tcp4", none⟩
    | ipType.ipv6 => .ok ⟨timeout, some "tcp6", none⟩
    | ipType.ipUnset => .error "invalid IP type"
  else
    match (if bType.iFace then getInterfaceIP env bType bind else .ok (Trim bind "[]")) with
    | .error err => .error err
    | .ok bindIP0 =>
      let bindIP := if bType.IP = ipType.ipv6 then "[" ++ bindIP0 ++ "]" else bindIP0
      match env.ResolveTCPAddr (bindIP ++ ":0") with
      | .error err => .error err
      | .ok addr => .ok ⟨timeout, none, some addr⟩

/-- The function `getHTTPClients`. -/
def getHTTPClients (env : Env) : Nat → bindType → String → Int → Except String (List Client)
  | 0, _, _, _ => .ok []
  | n + 1, bType, bind, timeout =>
    match getHTTPClient env bType bind timeout with
    | .error err => .error err
    | .ok client =>
      match getHTTPClients env n bType bind timeout with
      | .error err => .error err
      | .ok clients => .ok (client :: clients)

/-! ## `fetchIP` (lines 569-615) -/

/-- What the network does to one call of `fetchIP`. -/
inductive Fetch where
  /-- The value `http.NewRequestWithContext` fails with `err`. -/
  | requestError (err : String)
  /-- The call `client.Do` fails after `queryTime` with `err`; `timeout` is
  `errors.As(err, &netErr) && netErr.Timeout()`. -/
  | doError (queryTime : Int) (err : String) (timeout : Bool)
  /-- The call `io.ReadAll` fails with `err`. -/
  | readError (queryTime : Int) (err : String)
  /-- The response body was read in full. -/
  | body (queryTime : Int) (body : String)
  deriving DecidableEq, Repr

/-- The function `fetchIP`: the outcome it sends on the channel. -/
def fetchIP (f : Fetch) (t : ipType) : Option ipStringResp :=
  match f with
  | .requestError err => some ⟨"", 0, some err, false⟩
  | .doError queryTime err timeout => some ⟨"", queryTime, some err, timeout⟩
  | .readError queryTime err => some ⟨"", queryTime, some err, false⟩
  | .body queryTime body =>
    let ipStr := TrimSpace body
    match getBindType ipStr with
    | none => none
    | some b =>
      if b.IP ≠ t then some ⟨"", queryTime, some "response IP not correct", false⟩
      else some ⟨ipStr, queryTime, none, false⟩

/-! ## `getIPString` (lines 373-449) -/

/-- The local variables of the receive loop of `getIPString`, and the reports
sent on `respChan` so far. -/
structure raceState where
  errs : List (Option String)
  success : Bool
  longestQueryTime : Int
  allTimeout : Bool
  sent : List ipStringResp

/-- One turn of the loop `for range clients` (lines 399-423) on the outcome
`resp` received from `clientRespChan`. -/
def raceStep (st : raceState) (resp : ipStringResp) : raceState :=
  if st.success then st
  else
    let success1 := if resp.Err = none then true else st.success
    let sent1 :=
      if resp.Err = none then st.sent ++ [⟨resp.IP, resp.QueryTime, none, false⟩] else st.sent
    let longest1 :=
      if resp.QueryTime > st.longestQueryTime then resp.QueryTime else st.longestQueryTime
    let allTimeout1 := if resp.Timeout = false then false else st.allTimeout
    ⟨st.errs ++ [resp.Err], success1, longest1, allTimeout1, sent1⟩

/-- The loop of lines 433-439 that builds `errsString`, started at index `i`
with the errors `errs` still to visit; `n` is `len(errs)`.  `none` is a call of
`Error()` on a nil error. -/
def errsStringLoop (n : Nat) : Nat → List (Option String) → String → Option String
  | _, [], errsString => some errsString
  | i, err :: rest, errsString =>
    match err with
    | none => none
    | some msg =>
      let s1 := errsString ++ msg
      errsStringLoop n (i + 1) rest (if (i : Int) < (n : Int) - 1 then s1 ++ " | " else s1)

/-- Lines 395-446 of `getIPString`: the race over the outcomes `arrivals`, in
the order in which they arrive on `clientRespChan`.  The result is the list of
reports sent on `respChan`. -/
def race (arrivals : List ipStringResp) : Option (List ipStringResp) :=
  let st := arrivals.foldl raceStep ⟨[], false, 0, true, []⟩
  if st.success then some st.sent
  else
    match errsStringLoop st.errs.length 0 st.errs "" with
    | none => none
    | some errsString =>
      some (st.sent ++ [⟨"", st.longestQueryTime, some errsString, st.allTimeout⟩])

/-- The function `getIPString`: the reports it sends on `respChan`.  The loop
`for range clients` receives one outcome for each client; `arrivals` are the
outcomes that the `fetchIP` goroutines send, in arrival order. -/
def getIPString (env : Env) (apis : List String) (bType : bindType) (bind : String)
    (timeout : Int) (arrivals : List ipStringResp) : Option (List ipStringResp) :=
  match getHTTPClients env apis.length bType bind timeout with
  | .error err => some [⟨"", 0, some err, false⟩]
  | .ok clients => race (arrivals.take clients.length)

/-! ## Rendering (lines 65-92 and 277-371) -/

/-- Go `Duration.Milliseconds`: integer division, truncated towards zero. -/
def Milliseconds (d : Int) : Int := Int.tdiv d 1000000

/-- Go `strconv.Itoa` (the conversion `int(...)` before it is the identity on
a 64-bit target). -/
def Itoa (n : Int) : String :=
  match n with
  | Int.ofNat k => Nat.repr k
  | Int.negSucc k => "-" ++ Nat.repr (k + 1)

/-- Lines 286-298 of `getSingleOutput`, and the same code inlined twice in
`getPrettyOutput` (lines 326-336 and 340-350): the text for the report `resp`. -/
def describe (bType : bindType) (resp : ipStringResp) (verboseErr : Bool) : String :=
  match resp.Err with
  | some msg =>
    let output := "failed to get " ++ getIPTypeStr bType ++ " address"
    let output1 := if resp.Timeout then output ++ ": timeout" else output
    if verboseErr then output1 ++ ": " ++ msg else output1
  | none => resp.IP

/-- The function `getSingleOutput`.  It receives the first report sent on
`respChan`; `none` is a receive that never gets one, or a panic of the race. -/
def getSingleOutput (env : Env) (bType : bindType) (bind : String) (apis : List String)
    (verboseErr : Bool) (timeout : Int) (arrivals : List ipStringResp) : Option (String × Int) :=
  match getIPString env apis bType bind timeout arrivals with
  | some (resp :: _) => some (describe bType resp verboseErr, resp.QueryTime)
  | _ => none

/-- Lines 353-363 of `getPrettyOutput`: the query time of the two reports. -/
def mergeQueryTime (respV4 respV6 : ipStringResp) : Int :=
  if respV4.Timeout = respV6.Timeout then
    if respV4.QueryTime > respV6.QueryTime then respV4.QueryTime else respV6.QueryTime
  else if respV4.Timeout then respV6.QueryTime
  else respV4.QueryTime

/-- Lines 325-363 of `getPrettyOutput`: the two family lines and the query time
for the reports received from the two races. -/
def prettyBoth (respV4 respV6 : ipStringResp) (verboseErr : Bool) : String × Int :=
  let output := "" ++ "IPv4: "
  let output1 :=
    match respV4.Err with
    | some msg =>
      let o := output ++ "failed to get IPv4 address"
      let o1 := if respV4.Timeout then o ++ ": timeout" else o
      if verboseErr then o1 ++ ": " ++ msg else o1
    | none => output ++ respV4.IP
  let output2 := output1 ++ "\n"
  let output3 := output2 ++ "IPv6: "
  let output4 :=
    match respV6.Err with
    | some msg =>
      let o := output3 ++ "failed to get IPv6 address"
      let o1 := if respV6.Timeout then o ++ ": timeout" else o
      if verboseErr then o1 ++ ": " ++ msg else o1
    | none => output3 ++ respV6.IP
  (output4 ++ "\n", mergeQueryTime respV4 respV6)

/-- The function `getPrettyOutput`.  `arrivals t` are the outcomes that arrive
in the race for the family `t`. -/
def getPrettyOutput (env : Env) (bType : bindType) (bind : String) (apis : List String)
    (verboseErr : Bool) (timeout : Int) (arrivals : ipType → List ipStringResp) :
    Option String :=
  let body : Option (String × Int) :=
    if bType.IP ≠ ipType.ipUnset then
      match getSingleOutput env bType bind apis verboseErr timeout (arrivals bType.IP) with
      | none => none
      | some (singleOut, longestQueryTime) =>
        some ("" ++ (getIPTypeStr bType ++ ": " ++ singleOut ++ "\n"), longestQueryTime)
    else
      match getIPString env apis ⟨ipType.ipv4, bType.iFace⟩ bind timeout (arrivals ipType.ipv4),
        getIPString env apis ⟨ipType.ipv6, bType.iFace⟩ bind timeout (arrivals ipType.ipv6) with
      | some (respV4 :: _), some (respV6 :: _) => some (prettyBoth respV4 respV6 verboseErr)
      | _, _ => none
  match body with
  | none => none
  | some (output, longestQueryTime) =>
    some (output ++ ("Query time: " ++ Itoa (Milliseconds longestQueryTime) ++ " ms"))

/-- The `options` struct. -/
structure options where
  Bind : String
  BindType : bindType
  Short : Bool
  VerboseErr : Bool
  APIs : List String
  Timeout : Int
  PrintVer : Bool
  PrintUsage : Bool

/-- The variable `wutVersion`. -/
def wutVersion : String := "git"

/-- The function `main` once `getOptions` has returned `opt` without an error:
the text written to standard output (`flag.Usage` writes to standard error). -/
def main (env : Env) (opt : options) (arrivals : ipType → List ipStringResp) : Option String :=
  if opt.PrintUsage then some ""
  else if opt.PrintVer then some ("\x60wut\x60 version " ++ wutVersion ++ "\n")
  else if opt.Short then
    match getSingleOutput env opt.BindType opt.Bind opt.APIs opt.VerboseErr opt.Timeout
        (arrivals opt.BindType.IP) with
    | none => none
    | some (out, _) => some out
  else
    match getPrettyOutput env opt.BindType opt.Bind opt.APIs opt.VerboseErr opt.Timeout
        arrivals with
    | none => none
    | some out => some (out ++ "\n")

/-! ## The specification's line format, and example environments -/

/-- The line of one family in the words of the specification:
`<FamilyLabel>: <address | failure-description>`, where the failure description
is `failed to get <FamilyLabel> address`, followed by `: timeout` when the
report is a timeout and by `: <error message>` when verbose. -/
def familyLine (label : String) (r : ipStringResp) (verbose : Bool) : String :=
  label ++ ": " ++
    (match r.Err with
      | none => r.IP
      | some msg =>
        "failed to get " ++ label ++ " address" ++ (if r.Timeout then ": timeout" else "") ++
          (if verbose then ": " ++ msg else "")) ++ "\n"

/-- An operating system without interfaces, in which every address resolves. -/
def exampleEnv : Env :=
  ⟨fun _ => .error "route ip+net: no such network interface", fun s => .ok s⟩

/-- An operating system with one interface, `eth0`, that has an IPv4 address
only. -/
def exampleEnvV4Only : Env :=
  ⟨fun name =>
      if name = "eth0" then
        .ok ⟨.ok [⟨[0, 0, 0, 0, 0, 0, 0, 0, 0, 0, 255, 255, 192, 0, 2, 10], "192.0.2.10/24"⟩]⟩
      else .error "route ip+net: no such network interface",
    fun s => .ok s⟩

/-! ## Lemmas on the standard library -/

theorem parseIPv4Fields_bracket (s : List Char) : parseIPv4Fields ('[' :: s) = none := by
  simp [parseIPv4Fields, parseIPv4FieldsLoop]

theorem parseIPv6_bracket (s : List Char) : parseIPv6 ('[' :: s) = none := by
  have hloop : ∀ r ip e, parseIPv6Loop (r + 1) ('[' :: (splitZone s).1) ip e = none := by
    intro r ip e
    simp [parseIPv6Loop, parseHexGroup, hexVal]
  unfold parseIPv6
  have hs : splitZone ('[' :: s) = ('[' :: (splitZone s).1, (splitZone s).2) := by
    simp [splitZone]
  rw [hs]
  split
  · rfl
  · rename_i s0 z h1 h2
    simp only [Prod.mk.injEq] at h2
    obtain ⟨h2, h3⟩ := h2
    subst h2
    simp [hloop]

theorem parseAddrScan_bracket (s rest : List Char) : parseAddrScan ('[' :: s) rest = none := by
  induction rest with
  | nil => rfl
  | cons c rest ih =>
    unfold parseAddrScan
    split_ifs <;> simp [parseIPv4Fields_bracket, parseIPv6_bracket, ih]

/-- A text that starts with `[` is not an address for `net.ParseIP`. -/
theorem ParseIP_bracket (s : List Char) : ParseIP ⟨'[' :: s⟩ = none := by
  simp [ParseIP, parseAddrScan_bracket]

theorem ParseIP_empty : ParseIP ⟨[]⟩ = none := rfl

theorem trimFunc_eq (p : Char → Bool) (s : List Char) :
    trimFunc p s = List.rdropWhile p (s.dropWhile p) := rfl

theorem dropWhile_eq_self_of_head (p : Char → Bool) (l : List Char)
    (h : ∀ a, l.head? = some a → p a = false) : l.dropWhile p = l := by
  cases l with
  | nil => rfl
  | cons a l => simp [List.dropWhile_cons, h a rfl]

theorem trimFunc_idem (p : Char → Bool) (s : List Char) :
    trimFunc p (trimFunc p s) = trimFunc p s := by
  have hpre : trimFunc p s <+: s.dropWhile p := List.rdropWhile_prefix p _
  have hdrop : (trimFunc p s).dropWhile p = trimFunc p s := by
    apply dropWhile_eq_self_of_head
    intro a ha
    obtain ⟨t, ht⟩ := hpre
    have h0 := List.head?_dropWhile_not p s
    rw [← ht] at h0
    cases hu : trimFunc p s with
    | nil => rw [hu] at ha; simp at ha
    | cons b u =>
      rw [hu] at ha h0
      simp at ha h0
      rw [← ha]
      exact h0
  rw [trimFunc_eq p (trimFunc p s), hdrop, trimFunc_eq, List.rdropWhile_idempotent]

theorem TrimSpace_idem (s : String) : TrimSpace (TrimSpace s) = TrimSpace s := by
  simp [TrimSpace, trimFunc_idem]

theorem trimBrackets_cons (c : Char) (s : List Char) :
    trimBrackets (c :: s) =
      some (if c = '[' ∧ (c :: s).getLast? = some ']' then s.dropLast else c :: s) := by
  have hidx : index (c :: s) 0 = some c := by simp [index]
  have hlast : index (c :: s) (((c :: s).length : Int) - 1) = (c :: s).getLast? := by
    simp [index, List.getLast?_eq_getElem?]
  unfold trimBrackets
  rw [hidx, hlast]
  by_cases hc : c = '['
  · subst hc
    cases hl : ('[' :: s).getLast? with
    | none => simp at hl
    | some l =>
      by_cases hb : l = ']'
      · have hs : s ≠ [] := by
          intro h
          subst h
          simp at hl
          rw [hb] at hl
          exact absurd hl (by decide)
        have h1 : sliceFrom ('[' :: s) 1 = some s := by simp [sliceFrom]
        have hpos : 0 < s.length := List.length_pos.mpr hs
        have h2 : sliceTo s ((s.length : Int) - 1) = some s.dropLast := by
          have e : ((s.length : Int) - 1).toNat = s.length - 1 := by omega
          simp only [sliceTo, e, List.dropLast_eq_take]
          rw [if_pos]
          omega
        simp [hb, h1, h2]
      · simp [hb]
  · simp [hc]

/-! ## Lemmas on `getBindType` and `fetchIP` -/

theorem String_data_ne_nil {s : String} (h : s ≠ "") : s.data ≠ [] := by
  intro hd
  apply h
  cases s
  simp_all

/-- The classification made by `getBindType` once the trimmed input is known
to be non-empty. -/
theorem getBindType_of_trim (s : String) (hs : s ≠ "") (c : Char) (t : List Char)
    (ht : (TrimSpace s).data = c :: t) :
    getBindType s = some
      (match ParseIP (TrimSpace s) with
        | some ip => if (To4 ip).isSome then ⟨ipType.ipv4, false⟩ else ⟨ipType.ipv6, false⟩
        | none =>
          match ParseIP ⟨if c = '[' ∧ (c :: t).getLast? = some ']' then t.dropLast else c :: t⟩ with
          | some ip => if (To4 ip).isNone then ⟨ipType.ipv6, false⟩ else ⟨ipType.ipUnset, true⟩
          | none => ⟨ipType.ipUnset, true⟩) := by
  unfold getBindType
  rw [if_neg hs]
  simp only [ht, trimBrackets_cons]
  cases ParseIP (TrimSpace s) with
  | some ip => by_cases h4 : (To4 ip).isSome <;> simp [h4]
  | none =>
    simp only
    cases ParseIP ⟨if c = '[' ∧ (c :: t).getLast? = some ']' then t.dropLast else c :: t⟩ with
    | some ip => by_cases h4 : (To4 ip).isNone <;> simp [h4]
    | none => rfl

/-- The input that is all white space: `str[0]` is out of range. -/
theorem getBindType_blank (s : String) (hs : s ≠ "") (ht : (TrimSpace s).data = []) :
    getBindType s = none := by
  have hT : TrimSpace s = ⟨[]⟩ := by
    cases h : TrimSpace s
    rw [h] at ht
    simp_all
  unfold getBindType
  rw [if_neg hs]
  simp only [hT, ParseIP_empty]
  rfl

theorem bracketed_iff (c : Char) (t : List Char) :
    (c = '[' ∧ (c :: t).getLast? = some ']') ↔ ∃ inner, c :: t = '[' :: (inner ++ [']']) := by
  constructor
  · rintro ⟨hc, hl⟩
    subst hc
    have ht : t ≠ [] := by
      intro h
      subst h
      simp at hl
    refine ⟨t.dropLast, ?_⟩
    have := List.dropLast_append_getLast ht
    have hl2 : t.getLast ht = ']' := by
      rw [List.getLast?_cons, List.getLast?_eq_getLast t ht] at hl
      simpa using hl
    rw [hl2] at this
    rw [this]
  · rintro ⟨inner, h⟩
    simp only [List.cons.injEq] at h
    obtain ⟨hc, ht⟩ := h
    subst hc ht
    simp [List.getLast?_cons]

theorem getBindType_trimmed_isSome (s : String) : ∃ b, getBindType (TrimSpace s) = some b := by
  by_cases hs : TrimSpace s = ""
  · rw [hs]
    exact ⟨_, rfl⟩
  · have hd := String_data_ne_nil hs
    cases hdata : (TrimSpace s).data with
    | nil => exact absurd hdata hd
    | cons c t =>
      have ht : (TrimSpace (TrimSpace s)).data = c :: t := by rw [TrimSpace_idem, hdata]
      exact ⟨_, getBindType_of_trim _ hs c t ht⟩

/-- The call `fetchIP` always sends an outcome. -/
theorem fetchIP_isSome (f : Fetch) (t : ipType) : ∃ o, fetchIP f t = some o := by
  cases f with
  | requestError err => exact ⟨_, rfl⟩
  | doError q err timeout => exact ⟨_, rfl⟩
  | readError q err => exact ⟨_, rfl⟩
  | body q body =>
    obtain ⟨b, hb⟩ := getBindType_trimmed_isSome body
    simp only [fetchIP, hb]
    by_cases h : b.IP = t <;> simp [h]

/-- A success of `fetchIP` comes from a body, carries its trimmed text and the
time of the fetch, and for a family `ipv4` or `ipv6` the text is not empty. -/
theorem fetchIP_success (f : Fetch) (t : ipType) (o : ipStringResp)
    (h : fetchIP f t = some o) (herr : o.Err = none) :
    ∃ body, f = Fetch.body o.QueryTime body ∧ o = ⟨TrimSpace body, o.QueryTime, none, false⟩ ∧
      (t ≠ ipType.ipUnset → TrimSpace body ≠ "") := by
  cases f with
  | requestError err => simp [fetchIP] at h; subst h; simp at herr
  | doError q err timeout => simp [fetchIP] at h; subst h; simp at herr
  | readError q err => simp [fetchIP] at h; subst h; simp at herr
  | body q body =>
    obtain ⟨b, hb⟩ := getBindType_trimmed_isSome body
    simp only [fetchIP, hb] at h
    by_cases hbt : b.IP = t
    · simp [hbt] at h
      subst h
      refine ⟨body, rfl, rfl, ?_⟩
      intro hne hempty
      rw [hempty] at hb
      have : getBindType "" = some ⟨ipType.ipUnset, false⟩ := rfl
      rw [this] at hb
      simp at hb
      subst hb
      exact hne hbt.symm
    · simp [hbt] at h
      subst h
      simp at herr

/-! ## Lemmas on the race -/

theorem getHTTPClients_length (env : Env) (n : Nat) (bType : bindType) (bind : String)
    (timeout : Int) (clients : List Client)
    (h : getHTTPClients env n bType bind timeout = .ok clients) : clients.length = n := by
  induction n generalizing clients with
  | zero =>
    simp [getHTTPClients] at h
    subst h
    rfl
  | succ n ih =>
    unfold getHTTPClients at h
    cases h1 : getHTTPClient env bType bind timeout with
    | error e => simp [h1] at h
    | ok c =>
      cases h2 : getHTTPClients env n bType bind timeout with
      | error e => simp [h1, h2] at h
      | ok cs =>
        simp [h1, h2] at h
        subst h
        simp [ih cs h2]

/-- With its clients built and one outcome for each endpoint, `getIPString` is the race. -/
theorem getIPString_eq_race (env : Env) (apis : List String) (bType : bindType) (bind : String)
    (timeout : Int) (clients : List Client) (outs : List ipStringResp)
    (hclients : getHTTPClients env apis.length bType bind timeout = .ok clients)
    (hlen : outs.length = apis.length) :
    getIPString env apis bType bind timeout outs = race outs := by
  have hl := getHTTPClients_length env _ bType bind timeout clients hclients
  unfold getIPString
  rw [hclients]
  simp only
  rw [hl, ← hlen, List.take_length]

theorem foldl_raceStep_done (outs : List ipStringResp) (st : raceState)
    (h : st.success = true) : outs.foldl raceStep st = st := by
  induction outs with
  | nil => rfl
  | cons o outs ih =>
    rw [List.foldl_cons]
    have : raceStep st o = st := by simp [raceStep, h]
    rw [this, ih]

/-- The state of the race after a run of failures. -/
theorem foldl_raceStep_failures (outs : List ipStringResp) (st : raceState)
    (hs : st.success = false) (hfail : ∀ o ∈ outs, o.Err ≠ none) :
    (outs.foldl raceStep st).errs = st.errs ++ outs.map (fun o => o.Err) ∧
    (outs.foldl raceStep st).success = false ∧
    (outs.foldl raceStep st).sent = st.sent ∧
    ((outs.foldl raceStep st).allTimeout = true ↔
      st.allTimeout = true ∧ ∀ o ∈ outs, o.Timeout = true) ∧
    st.longestQueryTime ≤ (outs.foldl raceStep st).longestQueryTime ∧
    (∀ o ∈ outs, o.QueryTime ≤ (outs.foldl raceStep st).longestQueryTime) ∧
    ((outs.foldl raceStep st).longestQueryTime = st.longestQueryTime ∨
      (outs.foldl raceStep st).longestQueryTime ∈ outs.map (fun o => o.QueryTime)) := by
  induction outs generalizing st with
  | nil => simp [hs]
  | cons o outs ih =>
    have ho : o.Err ≠ none := hfail o (List.mem_cons_self _ _)
    have hrest : ∀ p ∈ outs, p.Err ≠ none := fun p hp => hfail p (List.mem_cons_of_mem _ hp)
    have hstep : raceStep st o =
        ⟨st.errs ++ [o.Err], false,
          if o.QueryTime > st.longestQueryTime then o.QueryTime else st.longestQueryTime,
          if o.Timeout = false then false else st.allTimeout, st.sent⟩ := by
      simp [raceStep, hs, ho]
    rw [List.foldl_cons, hstep]
    obtain ⟨h1, h2, h3, h4, h5, h6, h7⟩ := ih
      ⟨st.errs ++ [o.Err], false,
        if o.QueryTime > st.longestQueryTime then o.QueryTime else st.longestQueryTime,
        if o.Timeout = false then false else st.allTimeout, st.sent⟩ rfl hrest
    generalize List.foldl raceStep
      ⟨st.errs ++ [o.Err], false,
        if o.QueryTime > st.longestQueryTime then o.QueryTime else st.longestQueryTime,
        if o.Timeout = false then false else st.allTimeout, st.sent⟩ outs = R at h1 h2 h3 h4 h5 h6 h7 ⊢
    simp only at h1 h3 h4 h5 h7
    refine ⟨by rw [h1]; simp, h2, h3, ?_, ?_, ?_, ?_⟩
    · rw [h4]
      cases hT : o.Timeout <;> simp [hT]
    · split_ifs at h5 <;> omega
    · intro p hp
      rcases List.mem_cons.mp hp with rfl | hp
      · split_ifs at h5 <;> omega
      · exact h6 p hp
    · rcases h7 with h7 | h7
      · rw [h7]
        split_ifs
        · right; simp
        · left; rfl
      · right
        simp only [List.map_cons, List.mem_cons]
        right
        exact h7

theorem exists_first_success (outs : List ipStringResp) (h : ∃ o ∈ outs, o.Err = none) :
    ∃ pre o post, outs = pre ++ o :: post ∧ (∀ p ∈ pre, p.Err ≠ none) ∧ o.Err = none := by
  induction outs with
  | nil => simp at h
  | cons a outs ih =>
    by_cases ha : a.Err = none
    · exact ⟨[], a, outs, rfl, by simp, ha⟩
    · obtain ⟨o, ho, hoe⟩ := h
      rcases List.mem_cons.mp ho with rfl | ho
      · exact absurd hoe ha
      · obtain ⟨pre, o1, post, h1, h2, h3⟩ := ih ⟨o, ho, hoe⟩
        refine ⟨a :: pre, o1, post, by simp [h1], ?_, h3⟩
        intro p hp
        rcases List.mem_cons.mp hp with rfl | hp
        · exact ha
        · exact h2 p hp

/-- The race with a success: the report is made from the first success. -/
theorem race_first_success (pre post : List ipStringResp) (o : ipStringResp)
    (hpre : ∀ p ∈ pre, p.Err ≠ none) (ho : o.Err = none) :
    race (pre ++ o :: post) = some [⟨o.IP, o.QueryTime, none, false⟩] := by
  obtain ⟨_, h2, h3, _⟩ := foldl_raceStep_failures pre ⟨[], false, 0, true, []⟩ rfl hpre
  have hstep : (raceStep (pre.foldl raceStep ⟨[], false, 0, true, []⟩) o).success = true ∧
      (raceStep (pre.foldl raceStep ⟨[], false, 0, true, []⟩) o).sent =
        [⟨o.IP, o.QueryTime, none, false⟩] := by
    simp [raceStep, h2, h3, ho]
  unfold race
  simp only [List.foldl_append, List.foldl_cons]
  rw [foldl_raceStep_done post _ hstep.1]
  simp [hstep.1, hstep.2]

theorem intercalate_go_append (s x y : String) (l : List String) :
    String.intercalate.go (x ++ y) s l = x ++ String.intercalate.go y s l := by
  induction l generalizing y with
  | nil => rfl
  | cons a l ih =>
    simp only [String.intercalate.go]
    rw [String.append_assoc, String.append_assoc, ih, String.append_assoc]

theorem intercalate_cons_cons (s a b : String) (l : List String) :
    String.intercalate s (a :: b :: l) = a ++ s ++ String.intercalate s (b :: l) := by
  simp only [String.intercalate, String.intercalate.go]
  rw [intercalate_go_append]

/-- The loop that builds `errsString` joins the messages with `" | "`. -/
theorem errsStringLoop_eq (msgs : List String) (n i : Nat) (acc : String)
    (hn : n = i + msgs.length) :
    errsStringLoop n i (msgs.map some) acc = some (acc ++ String.intercalate " | " msgs) := by
  induction msgs generalizing i acc with
  | nil => simp [errsStringLoop, String.intercalate]
  | cons m rest ih =>
    simp only [List.map_cons, errsStringLoop]
    rw [ih (i + 1) _ (by simp at hn; omega)]
    cases rest with
    | nil =>
      have : ¬ ((i : Int) < (n : Int) - 1) := by simp at hn; omega
      simp [this, String.intercalate, String.intercalate.go]
    | cons b l =>
      have : ((i : Int) < (n : Int) - 1) := by simp at hn; omega
      rw [if_pos this, intercalate_cons_cons]
      simp only [String.append_assoc]

/-- The race without a success: one report, built from all the failures. -/
theorem race_all_failures (outs : List ipStringResp) (msgs : List String)
    (hmsgs : outs.map (fun o => o.Err) = msgs.map some) :
    race outs = some [⟨"", (outs.foldl raceStep ⟨[], false, 0, true, []⟩).longestQueryTime,
      some (String.intercalate " | " msgs),
      (outs.foldl raceStep ⟨[], false, 0, true, []⟩).allTimeout⟩] := by
  have hfail : ∀ o ∈ outs, o.Err ≠ none := by
    intro o ho he
    have : o.Err ∈ outs.map (fun o => o.Err) := List.mem_map_of_mem _ ho
    rw [hmsgs, he] at this
    simp at this
  obtain ⟨h1, h2, h3, _⟩ := foldl_raceStep_failures outs ⟨[], false, 0, true, []⟩ rfl hfail
  unfold race
  simp only [h2, h1, h3, List.nil_append, hmsgs]
  rw [errsStringLoop_eq msgs _ 0 "" (by simp)]
  simp

theorem failures_have_messages (outs : List ipStringResp) (hfail : ∀ o ∈ outs, o.Err ≠ none) :
    ∃ msgs : List String, outs.map (fun o => o.Err) = msgs.map some := by
  induction outs with
  | nil => exact ⟨[], rfl⟩
  | cons o outs ih =>
    obtain ⟨msgs, h⟩ := ih (fun p hp => hfail p (List.mem_cons_of_mem _ hp))
    cases he : o.Err with
    | none => exact absurd he (hfail o (List.mem_cons_self _ _))
    | some m => exact ⟨m :: msgs, by simp [he, h]⟩

/-- The race always sends exactly one report. -/
theorem race_sends_one (outs : List ipStringResp) : ∃ r, race outs = some [r] := by
  by_cases h : ∃ o ∈ outs, o.Err = none
  · obtain ⟨pre, o, post, h1, h2, h3⟩ := exists_first_success outs h
    rw [h1]
    exact ⟨_, race_first_success pre post o h2 h3⟩
  · have hfail : ∀ o ∈ outs, o.Err ≠ none := fun o ho he => h ⟨o, ho, he⟩
    obtain ⟨msgs, hm⟩ := failures_have_messages outs hfail
    exact ⟨_, race_all_failures outs msgs hm⟩

/-- The function `getIPString` always sends exactly one report. -/
theorem getIPString_sends_one (env : Env) (apis : List String) (bType : bindType)
    (bind : String) (timeout : Int) (arrivals : List ipStringResp) :
    ∃ r, getIPString env apis bType bind timeout arrivals = some [r] := by
  unfold getIPString
  cases getHTTPClients env apis.length bType bind timeout with
  | error e => exact ⟨_, rfl⟩
  | ok clients => exact race_sends_one _

/-! ## The race for one family -/

/-- C1: for a family `ipv4` or `ipv6`, when the outcomes `outs` that arrive (one
for each endpoint, each produced by `fetchIP` from what the network did,
`fetches`) contain a success (so they are not empty), `getIPString` sends exactly one
report; it is made from the first success `o` in arrival order (everything
before it failed): its address is the trimmed body of that fetch and is not
empty, its query time is that of `o`, its error is nil and its timeout flag is
false, whatever arrives before or after `o`. -/
theorem getIPString_reports_first_success (env : Env) (apis : List String) (bType : bindType)
    (bind : String) (timeout : Int) (clients : List Client) (fetches : List Fetch)
    (outs : List ipStringResp)
    (hfam : bType.IP = ipType.ipv4 ∨ bType.IP = ipType.ipv6)
    (hclients : getHTTPClients env apis.length bType bind timeout = .ok clients)
    (hlen : outs.length = apis.length)
    (hprod : fetches.map (fun f => fetchIP f bType.IP) = outs.map some)
    (hsucc : ∃ o ∈ outs, o.Err = none) :
    ∃ pre o post body,
      outs = pre ++ o :: post ∧ (∀ p ∈ pre, p.Err ≠ none) ∧ o.Err = none ∧
      fetches[pre.length]? = some (Fetch.body o.QueryTime body) ∧
      o.IP = TrimSpace body ∧ TrimSpace body ≠ "" ∧
      getIPString env apis bType bind timeout outs =
        some [⟨TrimSpace body, o.QueryTime, none, false⟩] := by
  obtain ⟨pre, o, post, h1, h2, h3⟩ := exists_first_success outs hsucc
  have hrace := getIPString_eq_race env apis bType bind timeout clients outs hclients hlen
  have hget : (outs.map some)[pre.length]? = some (some o) := by
    rw [h1, List.map_append, List.getElem?_append_right (by simp)]
    simp
  rw [← hprod, List.getElem?_map] at hget
  cases hf : fetches[pre.length]? with
  | none => simp [hf] at hget
  | some f =>
    simp only [hf, Option.map_some', Option.some.injEq] at hget
    obtain ⟨body, hb1, hb2, hb3⟩ := fetchIP_success f bType.IP o hget h3
    have hunset : bType.IP ≠ ipType.ipUnset := by
      rcases hfam with h | h <;> simp [h]
    have hIP : o.IP = TrimSpace body := by rw [hb2]
    refine ⟨pre, o, post, body, h1, h2, h3, by rw [hf, hb1], hIP, hb3 hunset, ?_⟩
    rw [hrace, h1, race_first_success pre post o h2 h3, hIP]

/-- Witness of C1: the first endpoint times out, the second answers
`198.51.100.7`, the third answers an IPv6 literal in an IPv4 race. -/
theorem getIPString_reports_first_success_witness :
    ∃ pre o post body,
      [(⟨"", 3000000000, some "context deadline exceeded", true⟩ : ipStringResp),
        ⟨"198.51.100.7", 41000000, none, false⟩,
        ⟨"", 52000000, some "response IP not correct", false⟩] = pre ++ o :: post ∧
      (∀ p ∈ pre, p.Err ≠ none) ∧ o.Err = none ∧
      [Fetch.doError 3000000000 "context deadline exceeded" true,
        Fetch.body 41000000 "198.51.100.7\n",
        Fetch.body 52000000 "2001:db8::1"][pre.length]? = some (Fetch.body o.QueryTime body) ∧
      o.IP = TrimSpace body ∧ TrimSpace body ≠ "" ∧
      getIPString exampleEnv ["https://a", "https://b", "https://c"] ⟨ipType.ipv4, false⟩ ""
          3000000000
          [⟨"", 3000000000, some "context deadline exceeded", true⟩,
            ⟨"198.51.100.7", 41000000, none, false⟩,
            ⟨"", 52000000, some "response IP not correct", false⟩] =
        some [⟨TrimSpace body, o.QueryTime, none, false⟩] :=
  getIPString_reports_first_success exampleEnv ["https://a", "https://b", "https://c"]
    ⟨ipType.ipv4, false⟩ "" 3000000000
    [⟨3000000000, some "tcp4", none⟩, ⟨3000000000, some "tcp4", none⟩,
      ⟨3000000000, some "tcp4", none⟩]
    [Fetch.doError 3000000000 "context deadline exceeded" true,
      Fetch.body 41000000 "198.51.100.7\n", Fetch.body 52000000 "2001:db8::1"]
    [⟨"", 3000000000, some "context deadline exceeded", true⟩,
      ⟨"198.51.100.7", 41000000, none, false⟩,
      ⟨"", 52000000, some "response IP not correct", false⟩]
    (Or.inl rfl) rfl rfl (by decide) ⟨⟨"198.51.100.7", 41000000, none, false⟩, by simp⟩

/-- C2: when none of the outcomes that arrive (one for each endpoint) is a
success, `getIPString` sends exactly one report, and its timeout flag is true if
and only if every outcome has its timeout flag true; one outcome that is not a
timeout makes it false.  This holds for every sequence of outcomes, the
non-empty ones in particular. -/
theorem getIPString_timeout_iff_all_timeout (env : Env) (apis : List String)
    (bType : bindType) (bind : String) (timeout : Int) (clients : List Client)
    (outs : List ipStringResp)
    (hclients : getHTTPClients env apis.length bType bind timeout = .ok clients)
    (hlen : outs.length = apis.length)
    (hfail : ∀ o ∈ outs, o.Err ≠ none) :
    ∃ r, getIPString env apis bType bind timeout outs = some [r] ∧
      (r.Timeout = true ↔ ∀ o ∈ outs, o.Timeout = true) ∧
      ((∃ o ∈ outs, o.Timeout = false) → r.Timeout = false) := by
  obtain ⟨msgs, hm⟩ := failures_have_messages outs hfail
  obtain ⟨_, _, _, h4, _⟩ := foldl_raceStep_failures outs ⟨[], false, 0, true, []⟩ rfl hfail
  have hiff : (outs.foldl raceStep ⟨[], false, 0, true, []⟩).allTimeout = true ↔
      ∀ o ∈ outs, o.Timeout = true := by
    rw [h4]
    simp
  refine ⟨⟨"", (outs.foldl raceStep ⟨[], false, 0, true, []⟩).longestQueryTime,
    some (String.intercalate " | " msgs),
    (outs.foldl raceStep ⟨[], false, 0, true, []⟩).allTimeout⟩, ?_, hiff, ?_⟩
  · rw [getIPString_eq_race env apis bType bind timeout clients outs hclients hlen]
    exact race_all_failures outs msgs hm
  · rintro ⟨o, ho, hto⟩
    cases hall : (outs.foldl raceStep ⟨[], false, 0, true, []⟩).allTimeout with
    | false => rfl
    | true =>
      have := hiff.mp hall o ho
      rw [hto] at this
      exact absurd this (by simp)

/-- Witness of C2: two timeouts and one refused connection. -/
theorem getIPString_timeout_iff_all_timeout_witness :
    ∃ r, getIPString exampleEnv ["https://a", "https://b", "https://c"] ⟨ipType.ipv6, false⟩ ""
        3000000000
        [⟨"", 3000000001, some "deadline exceeded", true⟩,
          ⟨"", 2000000, some "connection refused", false⟩,
          ⟨"", 3000000002, some "deadline exceeded", true⟩] = some [r] ∧
      (r.Timeout = true ↔
        ∀ o ∈ [(⟨"", 3000000001, some "deadline exceeded", true⟩ : ipStringResp),
          ⟨"", 2000000, some "connection refused", false⟩,
          ⟨"", 3000000002, some "deadline exceeded", true⟩], o.Timeout = true) ∧
      ((∃ o ∈ [(⟨"", 3000000001, some "deadline exceeded", true⟩ : ipStringResp),
          ⟨"", 2000000, some "connection refused", false⟩,
          ⟨"", 3000000002, some "deadline exceeded", true⟩], o.Timeout = false) →
        r.Timeout = false) :=
  getIPString_timeout_iff_all_timeout exampleEnv ["https://a", "https://b", "https://c"]
    ⟨ipType.ipv6, false⟩ "" 3000000000
    [⟨3000000000, some "tcp6", none⟩, ⟨3000000000, some "tcp6", none⟩,
      ⟨3000000000, some "tcp6", none⟩]
    [⟨"", 3000000001, some "deadline exceeded", true⟩,
      ⟨"", 2000000, some "connection refused", false⟩,
      ⟨"", 3000000002, some "deadline exceeded", true⟩]
    rfl rfl (by simp)

/-- C3: when the outcomes that arrive (one for each endpoint) are not empty,
all have an error (their messages, in arrival order, are `msgs`) and no elapsed
time is negative, `getIPString` sends exactly one report: its address is empty,
its error message is the messages joined by `" | "`, and its query time is the
maximum of the outcomes' query times (it is the time of one of them, and none
is greater). -/
theorem getIPString_all_failures_report (env : Env) (apis : List String) (bType : bindType)
    (bind : String) (timeout : Int) (clients : List Client) (outs : List ipStringResp)
    (msgs : List String)
    (hclients : getHTTPClients env apis.length bType bind timeout = .ok clients)
    (hlen : outs.length = apis.length)
    (hne : outs ≠ [])
    (hmsgs : outs.map (fun o => o.Err) = msgs.map some)
    (hnonneg : ∀ o ∈ outs, 0 ≤ o.QueryTime) :
    ∃ r, getIPString env apis bType bind timeout outs = some [r] ∧
      r.IP = "" ∧ r.Err = some (String.intercalate " | " msgs) ∧
      r.QueryTime ∈ outs.map (fun o => o.QueryTime) ∧
      ∀ o ∈ outs, o.QueryTime ≤ r.QueryTime := by
  have hfail : ∀ o ∈ outs, o.Err ≠ none := by
    intro o ho he
    have : o.Err ∈ outs.map (fun o => o.Err) := List.mem_map_of_mem _ ho
    rw [hmsgs, he] at this
    simp at this
  obtain ⟨_, _, _, _, _, h6, h7⟩ :=
    foldl_raceStep_failures outs ⟨[], false, 0, true, []⟩ rfl hfail
  refine ⟨⟨"", (outs.foldl raceStep ⟨[], false, 0, true, []⟩).longestQueryTime,
    some (String.intercalate " | " msgs),
    (outs.foldl raceStep ⟨[], false, 0, true, []⟩).allTimeout⟩, ?_, rfl, rfl, ?_, h6⟩
  · rw [getIPString_eq_race env apis bType bind timeout clients outs hclients hlen]
    exact race_all_failures outs msgs hmsgs
  · rcases h7 with h7 | h7
    · cases outs with
      | nil => exact absurd rfl hne
      | cons o rest =>
        have h0 := hnonneg o (List.mem_cons_self _ _)
        have h1 := h6 o (List.mem_cons_self _ _)
        simp only at h7
        rw [h7] at h1 ⊢
        have : o.QueryTime = 0 := le_antisymm h1 h0
        simp [this]
    · exact h7

/-- Witness of C3: two endpoints that both return a malformed body. -/
theorem getIPString_all_failures_report_witness :
    ∃ r, getIPString exampleEnv ["https://a", "https://b"] ⟨ipType.ipv4, false⟩ "" 3000000000
        [⟨"", 52000000, some "response IP not correct", false⟩,
          ⟨"", 41000000, some "response IP not correct", false⟩] = some [r] ∧
      r.IP = "" ∧
      r.Err = some (String.intercalate " | "
        ["response IP not correct", "response IP not correct"]) ∧
      r.QueryTime ∈ [(⟨"", 52000000, some "response IP not correct", false⟩ : ipStringResp),
          ⟨"", 41000000, some "response IP not correct", false⟩].map (fun o => o.QueryTime) ∧
      ∀ o ∈ [(⟨"", 52000000, some "response IP not correct", false⟩ : ipStringResp),
          ⟨"", 41000000, some "response IP not correct", false⟩], o.QueryTime ≤ r.QueryTime :=
  getIPString_all_failures_report exampleEnv ["https://a", "https://b"] ⟨ipType.ipv4, false⟩ ""
    3000000000 [⟨3000000000, some "tcp4", none⟩, ⟨3000000000, some "tcp4", none⟩]
    [⟨"", 52000000, some "response IP not correct", false⟩,
      ⟨"", 41000000, some "response IP not correct", false⟩]
    ["response IP not correct", "response IP not correct"]
    rfl rfl (by simp) rfl (by simp)

/-! ## Classification of bind targets and validation of response bodies -/

theorem String_eq_mk_data (s : String) (l : List Char) (h : s.data = l) : s = ⟨l⟩ := by
  cases s
  cases h
  rfl

theorem trimmed_cons_of_parse (s : String) (ip : IP) (h : ParseIP (TrimSpace s) = some ip) :
    s ≠ "" ∧ ∃ c t, (TrimSpace s).data = c :: t := by
  constructor
  · intro hs
    have h0 : ParseIP (TrimSpace "") = none := by decide
    rw [hs, h0] at h
    exact absurd h (by simp)
  · cases hd : (TrimSpace s).data with
    | nil =>
      have : TrimSpace s = ⟨[]⟩ :=
        String_eq_mk_data _ _ hd
      rw [this, ParseIP_empty] at h
      exact absurd h (by simp)
    | cons c t => exact ⟨c, t, rfl⟩

theorem getBindType_of_parse (s : String) (ip : IP) (h : ParseIP (TrimSpace s) = some ip) :
    getBindType s =
      some (if (To4 ip).isSome then ⟨ipType.ipv4, false⟩ else ⟨ipType.ipv6, false⟩) := by
  obtain ⟨hs, c, t, ht⟩ := trimmed_cons_of_parse s ip h
  rw [getBindType_of_trim s hs c t ht, h]

theorem getBindType_of_bracketed (s : String) (inner : List Char)
    (h : (TrimSpace s).data = '[' :: (inner ++ [']'])) :
    getBindType s = some
      (match ParseIP ⟨inner⟩ with
        | some ip => if (To4 ip).isNone then ⟨ipType.ipv6, false⟩ else ⟨ipType.ipUnset, true⟩
        | none => ⟨ipType.ipUnset, true⟩) := by
  have hs : s ≠ "" := by
    intro hs
    have h0 : (TrimSpace "").data = [] := by decide
    rw [hs, h0] at h
    exact absurd h (by simp)
  have hT : TrimSpace s = ⟨'[' :: (inner ++ [']'])⟩ :=
    String_eq_mk_data _ _ h
  have hcond : ('[' = '[' ∧ ('[' :: (inner ++ [']'])).getLast? = some ']') :=
    (bracketed_iff '[' (inner ++ [']'])).mpr ⟨inner, rfl⟩
  rw [getBindType_of_trim s hs '[' (inner ++ [']']) h, hT, ParseIP_bracket]
  simp only [hcond, and_self, if_true, List.dropLast_concat]

theorem parseIPv4FieldsLoop_length (s : List Char) :
    ∀ (i : Nat) (prev : Option Char) (val pos digLen : Nat) (fields r : List Nat),
      parseIPv4FieldsLoop s i prev val pos digLen fields = some r →
      fields.length = pos → pos ≤ 3 → r.length = 4 := by
  induction s with
  | nil =>
    intro i prev val pos digLen fields r h hf hp
    unfold parseIPv4FieldsLoop at h
    split_ifs at h with h3
    cases h
    simp
    omega
  | cons c rest ih =>
    intro i prev val pos digLen fields r h hf hp
    unfold parseIPv4FieldsLoop at h
    split_ifs at h with h1 h2 h3 h4 h5
    · simp only at h
      split_ifs at h
      exact ih _ _ _ _ _ _ _ h hf hp
    · exact ih _ _ _ _ _ _ _ h (by simp [hf]) (by omega)

theorem To4_of_mapped (f : List Nat) (hf : f.length = 4) :
    (To4 ([0, 0, 0, 0, 0, 0, 0, 0, 0, 0, 255, 255] ++ f)).isSome = true := by
  match f, hf with
  | [a, b, c, d], _ => simp [To4]

theorem parseAddrScan_no_colon (s : List Char) (rest : List Char) (ip : List Nat)
    (zone : List Char) (h : parseAddrScan s rest = some (ip, zone)) (hc : ':' ∉ rest) :
    (To4 ip).isSome = true ∧ zone = [] := by
  induction rest with
  | nil => simp [parseAddrScan] at h
  | cons c rest ih =>
    have hc2 : ':' ∉ rest := fun e => hc (List.mem_cons_of_mem _ e)
    unfold parseAddrScan at h
    split_ifs at h with h1 h2 h3
    · cases hp : parseIPv4Fields s with
      | none => simp [hp] at h
      | some f =>
        simp only [hp, Option.map_some', Option.some.injEq, Prod.mk.injEq] at h
        obtain ⟨hip, hz⟩ := h
        have hlen := parseIPv4FieldsLoop_length s 0 none 0 0 0 [] f hp rfl (by omega)
        rw [← hip, ← hz]
        exact ⟨To4_of_mapped f hlen, rfl⟩
    · exact absurd (by simp [h2]) hc
    · exact ih h hc2

/-- A text without a colon that `net.ParseIP` accepts is a dotted quad, and its
`To4` is not nil. -/
theorem ParseIP_no_colon (s : String) (ip : IP) (h : ParseIP s = some ip)
    (hc : ':' ∉ s.data) : (To4 ip).isSome = true := by
  unfold ParseIP at h
  cases hp : parseAddrScan s.data s.data with
  | none => simp [hp] at h
  | some r =>
    obtain ⟨ip1, zone⟩ := r
    simp only [hp] at h
    split_ifs at h
    cases h
    exact (parseAddrScan_no_colon s.data s.data ip zone hp hc).1

/-- C8 as stated fails: `::FFFF:C000:0201` is an IP literal in IPv6 syntax, not
an IPv4 literal, yet `getBindType` gives `{ipv4, false}` for it, because `To4`
of the parsed address is not nil; and `[::ffff:192.0.2.1]`, which parses with
its brackets removed as a literal in IPv6 syntax, is given `{ipUnset, true}`. -/
theorem getBindType_mapped_literal_not_ipv6 :
    ParseIP (TrimSpace "::FFFF:C000:0201") =
      some [0, 0, 0, 0, 0, 0, 0, 0, 0, 0, 255, 255, 192, 0, 2, 1] ∧
    parseIPv4Fields (TrimSpace "::FFFF:C000:0201").data = none ∧
    getBindType "::FFFF:C000:0201" = some ⟨ipType.ipv4, false⟩ ∧
    ParseIP "::ffff:192.0.2.1" =
      some [0, 0, 0, 0, 0, 0, 0, 0, 0, 0, 255, 255, 192, 0, 2, 1] ∧
    parseIPv4Fields "::ffff:192.0.2.1".data = none ∧
    getBindType "[::ffff:192.0.2.1]" = some ⟨ipType.ipUnset, true⟩ := by
  decide

/-- C8, amended: `getBindType` gives `{ipUnset, false}` for the empty string;
`{ipv4, false}` for every input whose trimmed form parses as an address for
which `To4` is not nil, which is the case of every accepted text without a
colon (the dotted quads) and of the IPv4-mapped literals in IPv6 syntax;
`{ipv6, false}` for every input whose trimmed form parses, bare or with one
pair of enclosing square brackets removed, as an address for which `To4` is
nil; and `{ipUnset, true}` for a bracketed text whose inside parses as an
address for which `To4` is not nil.  The four examples of the specification are
classified as it says. -/
theorem getBindType_classifies :
    getBindType "" = some ⟨ipType.ipUnset, false⟩ ∧
    (∀ (s : String) (ip : IP), ParseIP (TrimSpace s) = some ip → (To4 ip).isSome = true →
      getBindType s = some ⟨ipType.ipv4, false⟩) ∧
    (∀ (s : String) (ip : IP), ParseIP (TrimSpace s) = some ip → ':' ∉ (TrimSpace s).data →
      getBindType s = some ⟨ipType.ipv4, false⟩) ∧
    (∀ (s : String) (ip : IP), ParseIP (TrimSpace s) = some ip → To4 ip = none →
      getBindType s = some ⟨ipType.ipv6, false⟩) ∧
    (∀ (s : String) (inner : List Char) (ip : IP),
      (TrimSpace s).data = '[' :: (inner ++ [']']) → ParseIP ⟨inner⟩ = some ip →
      To4 ip = none → getBindType s = some ⟨ipType.ipv6, false⟩) ∧
    (∀ (s : String) (inner : List Char) (ip : IP),
      (TrimSpace s).data = '[' :: (inner ++ [']']) → ParseIP ⟨inner⟩ = some ip →
      (To4 ip).isSome = true → getBindType s = some ⟨ipType.ipUnset, true⟩) ∧
    getBindType "203.0.113.5" = some ⟨ipType.ipv4, false⟩ ∧
    getBindType "[2001:db8::1]" = some ⟨ipType.ipv6, false⟩ ∧
    getBindType "eth0" = some ⟨ipType.ipUnset, true⟩ := by
  refine ⟨rfl, ?_, ?_, ?_, ?_, ?_, by decide, by decide, by decide⟩
  · intro s ip h h4
    rw [getBindType_of_parse s ip h, if_pos h4]
  · intro s ip h hc
    rw [getBindType_of_parse s ip h, if_pos (ParseIP_no_colon _ ip h hc)]
  · intro s ip h h4
    rw [getBindType_of_parse s ip h, h4]
    rfl
  · intro s inner ip h hp h4
    rw [getBindType_of_bracketed s inner h, hp]
    simp only [h4]
    rfl
  · intro s inner ip h hp h4
    rw [getBindType_of_bracketed s inner h, hp]
    cases h5 : To4 ip with
    | none => rw [h5] at h4; exact absurd h4 (by simp)
    | some x =>
      simp only [h5]
      rfl

/-- Witness of C8: a dotted quad, an IPv4-mapped literal, an IPv6 literal, a
bracketed IPv6 literal and a bracketed IPv4-mapped literal, with white space
around them. -/
theorem getBindType_classifies_witness :
    getBindType " 192.0.2.1\n" = some ⟨ipType.ipv4, false⟩ ∧
    getBindType " ::ffff:c000:201 " = some ⟨ipType.ipv4, false⟩ ∧
    getBindType "\t2001:db8::2 " = some ⟨ipType.ipv6, false⟩ ∧
    getBindType " [::1] " = some ⟨ipType.ipv6, false⟩ ∧
    getBindType " [::ffff:192.0.2.1] " = some ⟨ipType.ipUnset, true⟩ :=
  ⟨getBindType_classifies.2.2.1 " 192.0.2.1\n"
      [0, 0, 0, 0, 0, 0, 0, 0, 0, 0, 255, 255, 192, 0, 2, 1] (by decide) (by decide),
    getBindType_classifies.2.1 " ::ffff:c000:201 "
      [0, 0, 0, 0, 0, 0, 0, 0, 0, 0, 255, 255, 192, 0, 2, 1] (by decide) (by decide),
    getBindType_classifies.2.2.2.1 "\t2001:db8::2 "
      [32, 1, 13, 184, 0, 0, 0, 0, 0, 0, 0, 0, 0, 0, 0, 2] (by decide) (by decide),
    getBindType_classifies.2.2.2.2.1 " [::1] " [':', ':', '1']
      [0, 0, 0, 0, 0, 0, 0, 0, 0, 0, 0, 0, 0, 0, 0, 1] (by decide) (by decide) (by decide),
    getBindType_classifies.2.2.2.2.2.1 " [::ffff:192.0.2.1] " "::ffff:192.0.2.1".data
      [0, 0, 0, 0, 0, 0, 0, 0, 0, 0, 255, 255, 192, 0, 2, 1] (by decide) (by decide)
      (by decide)⟩

/-- C10, at the failing input: for an input of white space only the trimmed
string is empty, `net.ParseIP` fails on it and `str[0]` is out of range, so
`getBindType` ends in a run-time panic instead of returning `{ipUnset, true}`. -/
theorem getBindType_whitespace_panics :
    getBindType " " = none ∧ getBindType "\t \n" = none ∧
    TrimSpace " " = "" ∧ index (TrimSpace " ").data 0 = none := by
  decide

/-- The part of C10 that holds: an input whose trimmed form is not empty and
parses neither bare nor with its enclosing brackets removed is an interface
name, and `getBindType` returns without a panic; `[`, `]` and `[]` are such
inputs. -/
theorem getBindType_interface_of_nonblank :
    (∀ (s : String) (c : Char) (t : List Char), (TrimSpace s).data = c :: t →
      ParseIP (TrimSpace s) = none →
      ParseIP ⟨if c = '[' ∧ (c :: t).getLast? = some ']' then t.dropLast else c :: t⟩ = none →
      getBindType s = some ⟨ipType.ipUnset, true⟩) ∧
    getBindType "[" = some ⟨ipType.ipUnset, true⟩ ∧
    getBindType "]" = some ⟨ipType.ipUnset, true⟩ ∧
    getBindType "[]" = some ⟨ipType.ipUnset, true⟩ := by
  refine ⟨?_, by decide, by decide, by decide⟩
  intro s c t ht h1 h2
  have hs : s ≠ "" := by
    intro hs
    have h0 : (TrimSpace "").data = [] := by decide
    rw [hs, h0] at ht
    exact absurd ht (by simp)
  rw [getBindType_of_trim s hs c t ht, h1]
  simp only [h2]

/-- An IPv4-mapped IPv6 literal has a `To4` that is not nil: `getBindType` gives
`ipv4` for it, and `fetchIP` accepts it in an IPv4 race and refuses it in an
IPv6 race. -/
theorem getBindType_mapped_address :
    getBindType "::ffff:192.0.2.1" = some ⟨ipType.ipv4, false⟩ ∧
    fetchIP (Fetch.body 0 "::ffff:192.0.2.1") ipType.ipv4 =
      some ⟨"::ffff:192.0.2.1", 0, none, false⟩ ∧
    fetchIP (Fetch.body 0 "::ffff:192.0.2.1") ipType.ipv6 =
      some ⟨"", 0, some "response IP not correct", false⟩ := by
  decide

/-- C7 as stated fails: the body `[2001:db8::1]` is not an address for
`net.ParseIP`, yet `fetchIP` for the family `ipv6` yields a success with the
bracketed text as address. -/
theorem fetchIP_accepts_bracketed_body :
    ParseIP (TrimSpace "[2001:db8::1]") = none ∧
    fetchIP (Fetch.body 41000000 "[2001:db8::1]") ipType.ipv6 =
      some ⟨"[2001:db8::1]", 41000000, none, false⟩ := by
  decide

/-- C7, amended: for a family `ipv4` or `ipv6` and a body read in full,
`fetchIP` yields the success whose address is the trimmed body if and only if
the trimmed body parses as an address of the family (`To4` not nil for `ipv4`,
nil for `ipv6`) or, for `ipv6`, is such a non-IPv4 address enclosed in one pair
of square brackets; for every other body it yields the error
`response IP not correct` with an empty address and no timeout. -/
theorem fetchIP_body_validation (queryTime : Int) (body : String) (t : ipType)
    (ht : t = ipType.ipv4 ∨ t = ipType.ipv6) :
    (fetchIP (Fetch.body queryTime body) t = some ⟨TrimSpace body, queryTime, none, false⟩ ↔
      ((∃ ip, ParseIP (TrimSpace body) = some ip ∧
          ((t = ipType.ipv4 ∧ (To4 ip).isSome = true) ∨ (t = ipType.ipv6 ∧ To4 ip = none))) ∨
        (t = ipType.ipv6 ∧ ∃ inner ip, (TrimSpace body).data = '[' :: (inner ++ [']']) ∧
          ParseIP ⟨inner⟩ = some ip ∧ To4 ip = none))) ∧
    (fetchIP (Fetch.body queryTime body) t = some ⟨TrimSpace body, queryTime, none, false⟩ ∨
      fetchIP (Fetch.body queryTime body) t =
        some ⟨"", queryTime, some "response IP not correct", false⟩) := by
  obtain ⟨b, hb⟩ := getBindType_trimmed_isSome body
  have hfetch : fetchIP (Fetch.body queryTime body) t =
      if b.IP ≠ t then some ⟨"", queryTime, some "response IP not correct", false⟩
      else some ⟨TrimSpace body, queryTime, none, false⟩ := by
    simp only [fetchIP, hb]
  have hiff : fetchIP (Fetch.body queryTime body) t =
      some ⟨TrimSpace body, queryTime, none, false⟩ ↔ b.IP = t := by
    rw [hfetch]
    by_cases h : b.IP = t <;> simp [h]
  refine ⟨?_, ?_⟩
  · rw [hiff]
    by_cases hempty : TrimSpace body = ""
    · rw [hempty] at hb ⊢
      have hb2 : b = ⟨ipType.ipUnset, false⟩ := by
        have : getBindType "" = some ⟨ipType.ipUnset, false⟩ := rfl
        rw [this] at hb
        exact (Option.some.inj hb).symm
      subst hb2
      have hp : ParseIP "" = none := rfl
      constructor
      · intro h
        rcases ht with h' | h' <;> rw [h'] at h <;> exact absurd h (by decide)
      · rintro (⟨ip, h, _⟩ | ⟨_, inner, ip, h, _⟩)
        · rw [hp] at h
          exact absurd h (by simp)
        · exact absurd h (by simp)
    · have hd := String_data_ne_nil hempty
      cases hdata : (TrimSpace body).data with
      | nil => exact absurd hdata hd
      | cons c rest =>
        have hdata2 : (TrimSpace (TrimSpace body)).data = c :: rest := by
          rw [TrimSpace_idem, hdata]
        have hcls := getBindType_of_trim (TrimSpace body) hempty c rest hdata2
        rw [TrimSpace_idem, hb] at hcls
        have hbeq := Option.some.inj hcls
        cases hp : ParseIP (TrimSpace body) with
        | some ip =>
          rw [hp] at hbeq
          have hnb : ∀ inner, c :: rest ≠ '[' :: (inner ++ [']']) := by
            intro inner hin
            have hT : TrimSpace body = ⟨'[' :: (inner ++ [']'])⟩ :=
              String_eq_mk_data _ _ (hdata.trans hin)
            rw [hT, ParseIP_bracket] at hp
            exact absurd hp (by simp)
          by_cases h4 : (To4 ip).isSome = true
          · simp only [h4, if_true] at hbeq
            rw [hbeq]
            constructor
            · intro h
              exact Or.inl ⟨ip, rfl, Or.inl ⟨h.symm, h4⟩⟩
            · rintro (⟨ip2, h, hfam⟩ | ⟨_, inner, ip2, h, _⟩)
              · cases h
                rcases hfam with ⟨h', _⟩ | ⟨_, h'⟩
                · exact h'.symm
                · rw [h'] at h4
                  exact absurd h4 (by simp)
              · exact absurd h (hnb inner)
          · simp only [h4] at hbeq
            rw [hbeq]
            have h4n : To4 ip = none := by
              cases h : To4 ip with
              | none => rfl
              | some x => rw [h] at h4; exact absurd rfl h4
            constructor
            · intro h
              exact Or.inl ⟨ip, rfl, Or.inr ⟨h.symm, h4n⟩⟩
            · rintro (⟨ip2, h, hfam⟩ | ⟨_, inner, ip2, h, _⟩)
              · cases h
                rcases hfam with ⟨_, h'⟩ | ⟨h', _⟩
                · exact absurd h' h4
                · exact h'.symm
              · exact absurd h (hnb inner)
        | none =>
          rw [hp] at hbeq
          simp only at hbeq
          by_cases hbr : c = '[' ∧ (c :: rest).getLast? = some ']'
          · obtain ⟨inner, hin⟩ := (bracketed_iff c rest).mp hbr
            have hrest : rest = inner ++ [']'] := (List.cons.inj hin).2
            have hdl : rest.dropLast = inner := by rw [hrest, List.dropLast_concat]
            rw [if_pos hbr, hdl] at hbeq
            constructor
            · intro h
              right
              cases hpi : ParseIP ⟨inner⟩ with
              | none =>
                rw [hpi] at hbeq
                rw [hbeq] at h
                rcases ht with h' | h' <;> rw [h'] at h <;> exact absurd h (by decide)
              | some ip =>
                rw [hpi] at hbeq
                cases h4 : To4 ip with
                | none =>
                  simp only [h4] at hbeq
                  rw [hbeq] at h
                  exact ⟨h.symm, inner, ip, hin, hpi, h4⟩
                | some x =>
                  simp [h4] at hbeq
                  rw [hbeq] at h
                  rcases ht with h' | h' <;> rw [h'] at h <;> exact absurd h (by decide)
            · rintro (⟨ip2, h, _⟩ | ⟨h6, inner2, ip2, h, hpi, h4⟩)
              · exact absurd h (by simp)
              · rw [hin] at h
                have : inner = inner2 := by
                  have := (List.cons.inj h).2
                  exact (List.append_left_inj _).mp this
                subst this
                rw [hpi] at hbeq
                simp only [h4] at hbeq
                rw [hbeq, h6]
                rfl
          · rw [if_neg hbr] at hbeq
            have hpd : ParseIP ⟨c :: rest⟩ = none := by
              have hT : TrimSpace body = ⟨c :: rest⟩ :=
                String_eq_mk_data _ _ hdata
              rw [← hT]
              exact hp
            rw [hpd] at hbeq
            rw [hbeq]
            constructor
            · intro h
              rcases ht with h' | h' <;> rw [h'] at h <;> exact absurd h (by decide)
            · rintro (⟨ip2, h, _⟩ | ⟨_, inner2, ip2, h, _⟩)
              · exact absurd h (by simp)
              · exact absurd ((bracketed_iff c rest).mpr ⟨inner2, h⟩) hbr
  · rw [hfetch]
    by_cases h : b.IP = t <;> simp [h]

/-- Witness of C7: an IPv4 body in an IPv4 race, with a trailing newline. -/
theorem fetchIP_body_validation_witness :
    (fetchIP (Fetch.body 41000000 "198.51.100.7\n") ipType.ipv4 =
        some ⟨TrimSpace "198.51.100.7\n", 41000000, none, false⟩ ↔
      ((∃ ip, ParseIP (TrimSpace "198.51.100.7\n") = some ip ∧
          ((ipType.ipv4 = ipType.ipv4 ∧ (To4 ip).isSome = true) ∨
            (ipType.ipv4 = ipType.ipv6 ∧ To4 ip = none))) ∨
        (ipType.ipv4 = ipType.ipv6 ∧ ∃ inner ip,
          (TrimSpace "198.51.100.7\n").data = '[' :: (inner ++ [']']) ∧
          ParseIP ⟨inner⟩ = some ip ∧ To4 ip = none))) ∧
    (fetchIP (Fetch.body 41000000 "198.51.100.7\n") ipType.ipv4 =
        some ⟨TrimSpace "198.51.100.7\n", 41000000, none, false⟩ ∨
      fetchIP (Fetch.body 41000000 "198.51.100.7\n") ipType.ipv4 =
        some ⟨"", 41000000, some "response IP not correct", false⟩) :=
  fetchIP_body_validation 41000000 "198.51.100.7\n" ipType.ipv4 (Or.inl rfl)

/-! ## Rendering of the reports -/

theorem describe_line (bType : bindType) (r : ipStringResp) (verboseErr : Bool) :
    "" ++ (getIPTypeStr bType ++ ": " ++ describe bType r verboseErr ++ "\n") =
      familyLine (getIPTypeStr bType) r verboseErr := by
  unfold describe familyLine
  cases r.Err <;> cases r.Timeout <;> cases verboseErr <;>
    simp only [String.append_assoc, String.empty_append, String.append_empty, reduceIte,
      Bool.false_eq_true]

theorem prettyBoth_fst (r4 r6 : ipStringResp) (verboseErr : Bool) :
    (prettyBoth r4 r6 verboseErr).1 =
      familyLine "IPv4" r4 verboseErr ++ familyLine "IPv6" r6 verboseErr := by
  have e1 : "IPv4: " = "IPv4" ++ ": " := rfl
  have e2 : "IPv6: " = "IPv6" ++ ": " := rfl
  have e3 : "failed to get IPv4 address" = "failed to get " ++ ("IPv4" ++ " address") := rfl
  have e4 : "failed to get IPv6 address" = "failed to get " ++ ("IPv6" ++ " address") := rfl
  unfold prettyBoth familyLine
  cases r4.Err <;> cases r6.Err <;> cases r4.Timeout <;> cases r6.Timeout <;>
    cases verboseErr <;>
    simp only [String.append_assoc, String.empty_append, String.append_empty, reduceIte,
      Bool.false_eq_true, e1, e2, e3, e4]

theorem getPrettyOutput_pinned (env : Env) (bType : bindType) (bind : String)
    (apis : List String) (verboseErr : Bool) (timeout : Int)
    (arrivals : ipType → List ipStringResp) (r : ipStringResp) (rest : List ipStringResp)
    (hpin : bType.IP ≠ ipType.ipUnset)
    (hr : getIPString env apis bType bind timeout (arrivals bType.IP) = some (r :: rest)) :
    getPrettyOutput env bType bind apis verboseErr timeout arrivals =
      some (familyLine (getIPTypeStr bType) r verboseErr ++
        ("Query time: " ++ Itoa (Milliseconds r.QueryTime) ++ " ms")) := by
  unfold getPrettyOutput getSingleOutput
  rw [if_pos hpin, hr]
  simp only [describe_line]

theorem getPrettyOutput_both (env : Env) (bType : bindType) (bind : String)
    (apis : List String) (verboseErr : Bool) (timeout : Int)
    (arrivals : ipType → List ipStringResp) (r4 r6 : ipStringResp)
    (rest4 rest6 : List ipStringResp)
    (hunset : bType.IP = ipType.ipUnset)
    (h4 : getIPString env apis ⟨ipType.ipv4, bType.iFace⟩ bind timeout (arrivals ipType.ipv4) =
      some (r4 :: rest4))
    (h6 : getIPString env apis ⟨ipType.ipv6, bType.iFace⟩ bind timeout (arrivals ipType.ipv6) =
      some (r6 :: rest6)) :
    getPrettyOutput env bType bind apis verboseErr timeout arrivals =
      some ((prettyBoth r4 r6 verboseErr).1 ++
        ("Query time: " ++ Itoa (Milliseconds (prettyBoth r4 r6 verboseErr).2) ++ " ms")) := by
  unfold getPrettyOutput
  have : ¬ (bType.IP ≠ ipType.ipUnset) := by simp [hunset]
  rw [if_neg this, h4, h6]

theorem getIPString_bind_failure (env : Env) (apis : List String) (bType : bindType)
    (bind : String) (timeout : Int) (arrivals : List ipStringResp) (err : String)
    (hapis : apis ≠ []) (hbind : bind ≠ "") (hiface : bType.iFace = true)
    (hres : getInterfaceIP env bType bind = .error err) :
    getIPString env apis bType bind timeout arrivals = some [⟨"", 0, some err, false⟩] := by
  have hclient : getHTTPClient env bType bind timeout = .error err := by
    unfold getHTTPClient
    rw [if_neg hbind, if_pos hiface, hres]
  cases apis with
  | nil => exact absurd rfl hapis
  | cons a apis =>
    unfold getIPString
    simp only [List.length_cons, getHTTPClients, hclient]

/-- C4: for every pair of reports received from the two races when no family
is pinned, the query time that `getPrettyOutput` keeps is the greater of the
two when the timeout flags are equal, that of the IPv6 report when only the
IPv4 report is a timeout, and that of the IPv4 report when only the IPv6
report is a timeout; and it is the time printed, in milliseconds, in the
`Query time` line. -/
theorem getPrettyOutput_query_time (v4 v6 : ipStringResp) (verboseErr : Bool) :
    ((v4.Timeout = v6.Timeout →
        (prettyBoth v4 v6 verboseErr).2 = max v4.QueryTime v6.QueryTime) ∧
      (v4.Timeout = true → v6.Timeout = false →
        (prettyBoth v4 v6 verboseErr).2 = v6.QueryTime) ∧
      (v4.Timeout = false → v6.Timeout = true →
        (prettyBoth v4 v6 verboseErr).2 = v4.QueryTime)) ∧
    ∀ (env : Env) (bType : bindType) (bind : String) (apis : List String) (timeout : Int)
      (arrivals : ipType → List ipStringResp) (rest4 rest6 : List ipStringResp),
      bType.IP = ipType.ipUnset →
      getIPString env apis ⟨ipType.ipv4, bType.iFace⟩ bind timeout (arrivals ipType.ipv4) =
        some (v4 :: rest4) →
      getIPString env apis ⟨ipType.ipv6, bType.iFace⟩ bind timeout (arrivals ipType.ipv6) =
        some (v6 :: rest6) →
      getPrettyOutput env bType bind apis verboseErr timeout arrivals =
        some ((prettyBoth v4 v6 verboseErr).1 ++
          ("Query time: " ++ Itoa (Milliseconds (prettyBoth v4 v6 verboseErr).2) ++ " ms")) := by
  refine ⟨⟨?_, ?_, ?_⟩, ?_⟩
  · intro h
    simp only [prettyBoth, mergeQueryTime, if_pos h]
    split_ifs with hq
    · exact (max_eq_left (le_of_lt hq)).symm
    · exact (max_eq_right (not_lt.mp hq)).symm
  · intro h4 h6
    simp [prettyBoth, mergeQueryTime, h4, h6]
  · intro h4 h6
    simp [prettyBoth, mergeQueryTime, h4, h6]
  · intro env bType bind apis timeout arrivals rest4 rest6 hunset h4 h6
    exact getPrettyOutput_both env bType bind apis verboseErr timeout arrivals v4 v6 rest4 rest6
      hunset h4 h6

/-- Witness of C4: every IPv4 endpoint times out after 3 s, an IPv6 endpoint
answers after 41 ms; the query time is 41 ms. -/
theorem getPrettyOutput_query_time_witness :
    (prettyBoth ⟨"", 3000000001, some "deadline exceeded", true⟩
        ⟨"2001:db8::1", 41000000, none, false⟩ false).2 = 41000000 ∧
    getPrettyOutput exampleEnv ⟨ipType.ipUnset, false⟩ "" ["https://a"] false 3000000000
        (fun t => if t = ipType.ipv4 then [⟨"", 3000000001, some "deadline exceeded", true⟩]
          else [⟨"2001:db8::1", 41000000, none, false⟩]) =
      some ((prettyBoth ⟨"", 3000000001, some "deadline exceeded", true⟩
          ⟨"2001:db8::1", 41000000, none, false⟩ false).1 ++
        ("Query time: " ++ Itoa (Milliseconds (prettyBoth
          ⟨"", 3000000001, some "deadline exceeded", true⟩
          ⟨"2001:db8::1", 41000000, none, false⟩ false).2) ++ " ms")) :=
  ⟨(getPrettyOutput_query_time ⟨"", 3000000001, some "deadline exceeded", true⟩
      ⟨"2001:db8::1", 41000000, none, false⟩ false).1.2.1 rfl rfl,
    (getPrettyOutput_query_time ⟨"", 3000000001, some "deadline exceeded", true⟩
      ⟨"2001:db8::1", 41000000, none, false⟩ false).2 exampleEnv ⟨ipType.ipUnset, false⟩ ""
      ["https://a"] 3000000000
      (fun t => if t = ipType.ipv4 then [⟨"", 3000000001, some "deadline exceeded", true⟩]
        else [⟨"2001:db8::1", 41000000, none, false⟩]) [] [] rfl rfl rfl⟩

/-- C5 as stated fails: in terse mode with the family IPv6 pinned and every
endpoint timing out, the program writes a failure text, not the empty string. -/
theorem main_terse_failure_not_empty :
    main exampleEnv ⟨"", ⟨ipType.ipv6, false⟩, true, false, ["https://a", "https://b"],
        3000000000, false, false⟩
      (fun _ => [⟨"", 3000000001, some "deadline exceeded", true⟩,
        ⟨"", 3000000002, some "deadline exceeded", true⟩]) =
      some "failed to get IPv6 address: timeout" := by
  decide

/-- C5, amended: in terse mode the text the program writes is exactly the
address of the family report when the report is a success; when the report
carries an error it is `failed to get <FamilyLabel> address`, followed by
`: timeout` when the report is a timeout and by `: <error message>` when
verbose. -/
theorem main_terse_output (env : Env) (opt : options) (arrivals : ipType → List ipStringResp)
    (r : ipStringResp) (rest : List ipStringResp)
    (husage : opt.PrintUsage = false) (hver : opt.PrintVer = false) (hshort : opt.Short = true)
    (hr : getIPString env opt.APIs opt.BindType opt.Bind opt.Timeout
      (arrivals opt.BindType.IP) = some (r :: rest)) :
    main env opt arrivals = some
      (match r.Err with
        | none => r.IP
        | some msg =>
          "failed to get " ++ getIPTypeStr opt.BindType ++ " address" ++
            (if r.Timeout then ": timeout" else "") ++
            (if opt.VerboseErr then ": " ++ msg else "")) := by
  unfold main getSingleOutput
  simp only [husage, hver, hshort, hr, describe]
  cases r.Err <;> cases r.Timeout <;> cases opt.VerboseErr <;>
    simp only [String.append_assoc, String.empty_append, String.append_empty, reduceIte,
      Bool.false_eq_true]

/-- Witness of C5: a pinned IPv4 race won by `198.51.100.7`. -/
theorem main_terse_output_witness :
    main exampleEnv ⟨"", ⟨ipType.ipv4, false⟩, true, false, ["https://a"], 3000000000,
        false, false⟩ (fun _ => [⟨"198.51.100.7", 41000000, none, false⟩]) =
      some "198.51.100.7" :=
  main_terse_output exampleEnv ⟨"", ⟨ipType.ipv4, false⟩, true, false, ["https://a"],
      3000000000, false, false⟩ (fun _ => [⟨"198.51.100.7", 41000000, none, false⟩])
    ⟨"198.51.100.7", 41000000, none, false⟩ [] rfl rfl rfl rfl

/-- C6: `getPrettyOutput` always returns, and its text is one line for each
requested family (the line of the pinned family, or the `IPv4` line followed by
the `IPv6` line when no family is pinned), each of the form
`<FamilyLabel>: <X>` with `X` the address of the family report on success and
otherwise `failed to get <FamilyLabel> address`, followed by `: timeout` exactly
when the report is a timeout and by `: <error message>` exactly when verbose,
followed by the last line `Query time: <milliseconds> ms`. -/
theorem getPrettyOutput_format (env : Env) (bType : bindType) (bind : String)
    (apis : List String) (verboseErr : Bool) (timeout : Int)
    (arrivals : ipType → List ipStringResp) :
    (bType.IP ≠ ipType.ipUnset →
      ∃ r, getIPString env apis bType bind timeout (arrivals bType.IP) = some [r] ∧
        getPrettyOutput env bType bind apis verboseErr timeout arrivals =
          some (familyLine (if bType.IP = ipType.ipv4 then "IPv4" else "IPv6") r verboseErr ++
            ("Query time: " ++ Itoa (Milliseconds r.QueryTime) ++ " ms"))) ∧
    (bType.IP = ipType.ipUnset →
      ∃ r4 r6,
        getIPString env apis ⟨ipType.ipv4, bType.iFace⟩ bind timeout (arrivals ipType.ipv4) =
          some [r4] ∧
        getIPString env apis ⟨ipType.ipv6, bType.iFace⟩ bind timeout (arrivals ipType.ipv6) =
          some [r6] ∧
        getPrettyOutput env bType bind apis verboseErr timeout arrivals =
          some (familyLine "IPv4" r4 verboseErr ++ familyLine "IPv6" r6 verboseErr ++
            ("Query time: " ++ Itoa (Milliseconds (mergeQueryTime r4 r6)) ++ " ms"))) := by
  constructor
  · intro hpin
    obtain ⟨r, hr⟩ := getIPString_sends_one env apis bType bind timeout (arrivals bType.IP)
    refine ⟨r, hr, ?_⟩
    rw [getPrettyOutput_pinned env bType bind apis verboseErr timeout arrivals r [] hpin hr]
    have hlabel : getIPTypeStr bType = if bType.IP = ipType.ipv4 then "IPv4" else "IPv6" := by
      unfold getIPTypeStr
      cases h : bType.IP with
      | ipv4 => rfl
      | ipv6 => rfl
      | ipUnset => exact absurd h hpin
    rw [hlabel]
  · intro hunset
    obtain ⟨r4, h4⟩ := getIPString_sends_one env apis ⟨ipType.ipv4, bType.iFace⟩ bind timeout
      (arrivals ipType.ipv4)
    obtain ⟨r6, h6⟩ := getIPString_sends_one env apis ⟨ipType.ipv6, bType.iFace⟩ bind timeout
      (arrivals ipType.ipv6)
    refine ⟨r4, r6, h4, h6, ?_⟩
    rw [getPrettyOutput_both env bType bind apis verboseErr timeout arrivals r4 r6 [] []
      hunset h4 h6, prettyBoth_fst]
    rfl

/-- Witness of C6: both families, verbose; every IPv4 endpoint times out and an
IPv6 endpoint answers. -/
theorem getPrettyOutput_format_witness :
    ∃ r4 r6,
      getIPString exampleEnv ["https://a"] ⟨ipType.ipv4, false⟩ "" 3000000000
        [⟨"", 3000000001, some "deadline exceeded", true⟩] = some [r4] ∧
      getIPString exampleEnv ["https://a"] ⟨ipType.ipv6, false⟩ "" 3000000000
        [⟨"2001:db8::1", 41000000, none, false⟩] = some [r6] ∧
      getPrettyOutput exampleEnv ⟨ipType.ipUnset, false⟩ "" ["https://a"] true 3000000000
          (fun t => if t = ipType.ipv4 then [⟨"", 3000000001, some "deadline exceeded", true⟩]
            else [⟨"2001:db8::1", 41000000, none, false⟩]) =
        some (familyLine "IPv4" r4 true ++ familyLine "IPv6" r6 true ++
          ("Query time: " ++ Itoa (Milliseconds (mergeQueryTime r4 r6)) ++ " ms")) :=
  (getPrettyOutput_format exampleEnv ⟨ipType.ipUnset, false⟩ "" ["https://a"] true 3000000000
    (fun t => if t = ipType.ipv4 then [⟨"", 3000000001, some "deadline exceeded", true⟩]
      else [⟨"2001:db8::1", 41000000, none, false⟩])).2 rfl

/-! ## Failure of the bind resolution -/

/-- C9 as stated fails: when the bind target names no interface, or the
interface has no address of the family, `getPrettyOutput` still returns a
report, with a line for each requested family and the `Query time` line. -/
theorem getPrettyOutput_bind_failure_not_aborted :
    getInterfaceIP exampleEnv ⟨ipType.ipv4, true⟩ "eth9" =
      .error "route ip+net: no such network interface" ∧
    getPrettyOutput exampleEnv ⟨ipType.ipv4, true⟩ "eth9" ["https://icanhazip.com"] false
        3000000000 (fun _ => []) =
      some "IPv4: failed to get IPv4 address\nQuery time: 0 ms" ∧
    getInterfaceIP exampleEnvV4Only ⟨ipType.ipv6, true⟩ "eth0" =
      .error "interface eth0 does not have an IPv6 address" ∧
    getPrettyOutput exampleEnvV4Only ⟨ipType.ipUnset, true⟩ "eth0" ["https://icanhazip.com"] true
        3000000000
        (fun t => if t = ipType.ipv4 then [⟨"198.51.100.7", 41000000, none, false⟩] else []) =
      some ("IPv4: 198.51.100.7\n" ++
        "IPv6: failed to get IPv6 address: interface eth0 does not have an IPv6 address\n" ++
        "Query time: 41 ms") :=
  ⟨rfl, by decide, rfl, by decide⟩

/-- C9, amended: when the bind target is an interface and its resolution fails
for a requested family (with at least one endpoint configured), the invocation
is not aborted.  `getIPString` sends the failure as the report of that family
(empty address, query time 0, the error of the resolution, no timeout) and
`getPrettyOutput` renders it as any other failure: for a pinned family the text
is `<FamilyLabel>: failed to get <FamilyLabel> address`, followed by
`: <error>` when verbose, and the line `Query time: 0 ms`; when no family is
pinned the text is the `IPv4` line, the `IPv6` line and the `Query time` line,
the line of a family whose resolution fails being made from that report. -/
theorem getPrettyOutput_bind_failure (env : Env) (bType : bindType) (bind : String)
    (apis : List String) (verboseErr : Bool) (timeout : Int)
    (arrivals : ipType → List ipStringResp)
    (hapis : apis ≠ []) (hbind : bind ≠ "") (hiface : bType.iFace = true) :
    (∀ err, bType.IP ≠ ipType.ipUnset → getInterfaceIP env bType bind = .error err →
      getIPString env apis bType bind timeout (arrivals bType.IP) =
        some [⟨"", 0, some err, false⟩] ∧
      getPrettyOutput env bType bind apis verboseErr timeout arrivals =
        some (getIPTypeStr bType ++ ": " ++
          ("failed to get " ++ getIPTypeStr bType ++ " address" ++
            (if verboseErr then ": " ++ err else "")) ++ "\n" ++ "Query time: 0 ms")) ∧
    (bType.IP = ipType.ipUnset →
      ∃ r4 r6,
        getIPString env apis ⟨ipType.ipv4, bType.iFace⟩ bind timeout (arrivals ipType.ipv4) =
          some [r4] ∧
        getIPString env apis ⟨ipType.ipv6, bType.iFace⟩ bind timeout (arrivals ipType.ipv6) =
          some [r6] ∧
        (∀ e4, getInterfaceIP env ⟨ipType.ipv4, true⟩ bind = .error e4 →
          r4 = ⟨"", 0, some e4, false⟩) ∧
        (∀ e6, getInterfaceIP env ⟨ipType.ipv6, true⟩ bind = .error e6 →
          r6 = ⟨"", 0, some e6, false⟩) ∧
        getPrettyOutput env bType bind apis verboseErr timeout arrivals =
          some (familyLine "IPv4" r4 verboseErr ++ familyLine "IPv6" r6 verboseErr ++
            ("Query time: " ++ Itoa (Milliseconds (mergeQueryTime r4 r6)) ++ " ms"))) := by
  constructor
  · intro err hpin hres
    have hr := getIPString_bind_failure env apis bType bind timeout (arrivals bType.IP) err
      hapis hbind hiface hres
    refine ⟨hr, ?_⟩
    rw [getPrettyOutput_pinned env bType bind apis verboseErr timeout arrivals _ [] hpin hr]
    have h0 : Itoa (Milliseconds 0) = "0" := rfl
    simp only [familyLine, h0]
    have e : "Query time: " ++ "0" ++ " ms" = "Query time: 0 ms" := rfl
    rw [e]
    cases verboseErr <;>
      simp only [String.append_assoc, String.empty_append, String.append_empty, reduceIte,
        Bool.false_eq_true]
  · intro hunset
    obtain ⟨r4, h4⟩ := getIPString_sends_one env apis ⟨ipType.ipv4, bType.iFace⟩ bind timeout
      (arrivals ipType.ipv4)
    obtain ⟨r6, h6⟩ := getIPString_sends_one env apis ⟨ipType.ipv6, bType.iFace⟩ bind timeout
      (arrivals ipType.ipv6)
    refine ⟨r4, r6, h4, h6, ?_, ?_, ?_⟩
    · intro e4 hres
      rw [hiface] at h4
      rw [getIPString_bind_failure env apis ⟨ipType.ipv4, true⟩ bind timeout
        (arrivals ipType.ipv4) e4 hapis hbind rfl hres] at h4
      simp only [Option.some.injEq, List.cons.injEq, and_true] at h4
      exact h4.symm
    · intro e6 hres
      rw [hiface] at h6
      rw [getIPString_bind_failure env apis ⟨ipType.ipv6, true⟩ bind timeout
        (arrivals ipType.ipv6) e6 hapis hbind rfl hres] at h6
      simp only [Option.some.injEq, List.cons.injEq, and_true] at h6
      exact h6.symm
    · rw [getPrettyOutput_both env bType bind apis verboseErr timeout arrivals r4 r6 [] []
        hunset h4 h6, prettyBoth_fst]
      rfl

/-- Witness of C9: `-4 -i eth9 --verbose` on a machine without the interface
`eth9`. -/
theorem getPrettyOutput_bind_failure_witness :
    getIPString exampleEnv ["https://icanhazip.com"] ⟨ipType.ipv4, true⟩ "eth9" 3000000000 [] =
      some [⟨"", 0, some "route ip+net: no such network interface", false⟩] ∧
    getPrettyOutput exampleEnv ⟨ipType.ipv4, true⟩ "eth9" ["https://icanhazip.com"] true
        3000000000 (fun _ => []) =
      some (getIPTypeStr ⟨ipType.ipv4, true⟩ ++ ": " ++
        ("failed to get " ++ getIPTypeStr ⟨ipType.ipv4, true⟩ ++ " address" ++
          (if true then ": " ++ "route ip+net: no such network interface" else "")) ++ "\n" ++
        "Query time: 0 ms") :=
  (getPrettyOutput_bind_failure exampleEnv ⟨ipType.ipv4, true⟩ "eth9" ["https://icanhazip.com"]
    true 3000000000 (fun _ => []) (by simp) (by decide) rfl).1
    "route ip+net: no such network interface" (by decide) rfl
end Wut
